import Mathlib

/-!
# A verification development for the RuneScript compiler and VM

This file gives a shallow embedding, in Lean 4, of the core of the
`runescript-compiler` repository (lexer.rs, compiler.rs, evaluator.rs,
vm.rs), and proves properties of the embedded code.

Modelling conventions:

* Rust `i32` values are modelled as `Int`.  Checked arithmetic
  (`checked_add` and friends) is modelled by an explicit range test on
  the mathematical result, which agrees with `i32` overflow checking
  whenever the operands are in range (they always are here, since every
  value in the VM originates from an in-range constant or a checked
  operation).  The one *unchecked* multiplication in the source
  (`VM::execute_instruction`, `Multiply` arm) wraps in release builds
  and aborts in debug builds; it is modelled as wrapping (`wrap32`).
  No theorem in this file depends on the wrapped value.
* Rust `HashMap` fields are modelled as association lists with
  insert-overwrites-and-lookup-finds-latest semantics.
* Rust functions that can panic or return `Result<_, String>` are
  modelled in `Except`, with a dedicated error inductive per component;
  the constructors record which source message is meant.
* The `while` loops of `VM::run_script` are modelled by structural
  recursion on an explicit fuel argument.  The source loop terminates
  because every iteration increments the monotone `instruction_count`,
  which is checked against `max_instructions` at the top of each
  iteration; passing `max_instructions + 1` fuel therefore always
  dominates the number of iterations the source can perform, and the
  fuel-exhaustion branch (which returns the same budget error the check
  would return) is unreachable from `runScript`.
-/

deriving instance DecidableEq for Except

/-! ## i32 arithmetic -/

/-- Smallest `i32` value. -/
def i32Min : Int := -2147483648

/-- Largest `i32` value. -/
def i32Max : Int := 2147483647

/-- Rust `i32::checked_add`: `none` exactly when the mathematical sum
leaves the `i32` range (for in-range operands). -/
def checkedAdd (a b : Int) : Option Int :=
  if i32Min ≤ a + b ∧ a + b ≤ i32Max then some (a + b) else none

/-- Rust `i32::checked_sub`. -/
def checkedSub (a b : Int) : Option Int :=
  if i32Min ≤ a - b ∧ a - b ≤ i32Max then some (a - b) else none

/-- Rust `i32::checked_mul`. -/
def checkedMul (a b : Int) : Option Int :=
  if i32Min ≤ a * b ∧ a * b ≤ i32Max then some (a * b) else none

/-- Two's-complement wrap-around into the `i32` range, the release-build
behaviour of unchecked Rust `i32` arithmetic. -/
def wrap32 (z : Int) : Int :=
  (z + 2147483648) % 4294967296 - 2147483648

/-! ## Bytecode (bytecode.rs)

The `Instruction` enum, minus the string/array/varp opcodes that no code
path of compiler.rs or vm.rs constructs or inspects (they would all fall
into the same wildcard match arms as the ones kept here).  `Abs` is
referenced by `Compiler::compile_node` for the `abs` command.  Targets
are `usize` in the source, hence `Nat` here. -/

inductive Instr where
  | PushConstantInt (v : Int)
  | PushConstantString (s : String)
  | Branch (target : Nat)
  | BranchNot (target : Nat)
  | BranchEquals (target : Nat)
  | BranchLessThan (target : Nat)
  | BranchGreaterThan (target : Nat)
  | BranchLessThanOrEquals (target : Nat)
  | BranchGreaterThanOrEquals (target : Nat)
  | BranchNotEquals (target : Nat)
  | Add
  | Subtract
  | Multiply
  | Divide
  | Return
  | Gosub (name : String)
  | Jump (target : Nat)
  | Switch (cases : List (Int × Nat))
  | PushIntLocal (name : String)
  | PopIntLocal (name : String)
  | PushStringLocal (name : String)
  | PopStringLocal (name : String)
  | JoinString
  | GosubWithParams (name : String)
  | Abs
  deriving Repr, DecidableEq

/-- The per-script bytecode container (`ByteCode` in bytecode.rs).  The
`constants`, `strings`, `locals` and `arrays` pools are initialised
empty by `ByteCode::new` and never written by `Compiler` or read by
`VM::run_script`, so they are omitted. -/
structure ByteCodeL where
  scriptName : String
  instructions : List Instr
  deriving Repr, DecidableEq

/-! ## VM state (vm.rs)

`VM` fields that `run_script` and `execute_instruction` never touch
(`string_stack`, `string_variables`, `arrays`, `script_vars`,
`call_stack`) are omitted. -/

structure VMState where
  ip : Nat
  stack : List Int
  vars : List (String × Int)
  scripts : List (String × ByteCodeL)
  currentScript : Option String
  instructionCount : Nat
  maxInstructions : Nat
  memoCache : List ((String × List Int) × Int)
  deriving Repr, DecidableEq

/-- `VM::new()`: `max_instructions` is 10,000,000. -/
def vmNew : VMState :=
  { ip := 0, stack := [], vars := [], scripts := [],
    currentScript := none, instructionCount := 0,
    maxInstructions := 10000000, memoCache := [] }

/-- `VM::register_script`: install a bytecode module under its own
script name. -/
def registerScript (vm : VMState) (bc : ByteCodeL) : VMState :=
  { vm with scripts :=
      (bc.scriptName, bc) :: vm.scripts.filter (fun p => p.1 ≠ bc.scriptName) }

/-- HashMap lookup (most recent binding wins). -/
def varLookup (m : List (String × Int)) (k : String) : Option Int :=
  match m with
  | [] => none
  | p :: rest => if p.1 = k then some p.2 else varLookup rest k

/-- HashMap insert (overwrite). -/
def varInsert (m : List (String × Int)) (k : String) (v : Int) :
    List (String × Int) :=
  (k, v) :: m.filter (fun p => p.1 ≠ k)

/-- Script-registry lookup. -/
def scriptLookup (m : List (String × ByteCodeL)) (k : String) :
    Option ByteCodeL :=
  match m with
  | [] => none
  | p :: rest => if p.1 = k then some p.2 else scriptLookup rest k

/-- Memo-cache lookup, keyed by script name and argument vector. -/
def memoLookup (m : List ((String × List Int) × Int))
    (k : String × List Int) : Option Int :=
  match m with
  | [] => none
  | p :: rest => if p.1 = k then some p.2 else memoLookup rest k

/-- Memo-cache insert (overwrite). -/
def memoInsert (m : List ((String × List Int) × Int))
    (k : String × List Int) (v : Int) : List ((String × List Int) × Int) :=
  (k, v) :: m.filter (fun p => p.1 ≠ k)

/-- `self.stack.pop().unwrap_or(0)`: popping an empty operand stack
silently yields 0. -/
def popInt : List Int → Int × List Int
  | [] => (0, [])
  | a :: rest => (a, rest)

/-- Pop `n` values (`for _ in 0..num_args { args.push(pop) }`), first
popped first.  The source converts the popped count to `usize` with
`as`; a negative count would make the source loop astronomically long,
which no reachable bytecode does, and is out of scope here. -/
def popN : List Int → Nat → List Int × List Int
  | st, 0 => ([], st)
  | st, n + 1 =>
    let (a, st1) := popInt st
    let (rest, st2) := popN st1 n
    (a :: rest, st2)

/-- The name `argN` given to the `N`-th argument of an invocation. -/
def argName (i : Nat) : String := "arg" ++ toString i

/-- Install `arg0, arg1, ...` into a cleared variable map
(`self.vars.clear()` followed by the insertion loop). -/
def setupArgs (args : List Int) : List (String × Int) :=
  (List.range args.length).zip args |>.foldl
    (fun m p => varInsert m (argName p.1) p.2) []

/-- The runtime errors `run_script` can produce.  In the source these
are `String`s; the constructors stand for, in order:
`"Script 'name' not found"`, `"Integer overflow"`, and
`"Execution exceeded maximum instruction count (10000000)."`. -/
inductive RtErr where
  | scriptNotFound (name : String)
  | overflow
  | budgetExceeded
  deriving Repr, DecidableEq

/-- `VM::execute_instruction`: the instruction interpreter used for the
body of a callee entered through `GosubWithParams`.  Note its `Multiply`
is unchecked in the source and its wildcard arm silently ignores every
unlisted opcode, *including* `GosubWithParams`, `Gosub`, `Divide` and
`Return` (`Return` is intercepted by the caller's loop instead). -/
def executeInstruction (vm : VMState) : Instr → Except RtErr Unit × VMState
  | .PushConstantInt v => (.ok (), { vm with stack := v :: vm.stack })
  | .PushIntLocal name =>
    let v := (varLookup vm.vars name).getD 0
    (.ok (), { vm with stack := v :: vm.stack })
  | .PopIntLocal name =>
    let (v, st) := popInt vm.stack
    (.ok (), { vm with stack := st, vars := varInsert vm.vars name v })
  | .Add =>
    let (b, st1) := popInt vm.stack
    let (a, st2) := popInt st1
    match checkedAdd a b with
    | some r => (.ok (), { vm with stack := r :: st2 })
    | none => (.error .overflow, { vm with stack := st2 })
  | .Subtract =>
    let (b, st1) := popInt vm.stack
    let (a, st2) := popInt st1
    match checkedSub a b with
    | some r => (.ok (), { vm with stack := r :: st2 })
    | none => (.error .overflow, { vm with stack := st2 })
  | .Multiply =>
    let (b, st1) := popInt vm.stack
    let (a, st2) := popInt st1
    (.ok (), { vm with stack := wrap32 (a * b) :: st2 })
  | .BranchGreaterThan pos =>
    let (b, st1) := popInt vm.stack
    let (a, st2) := popInt st1
    (.ok (), if a > b then { vm with stack := st2, ip := pos }
             else { vm with stack := st2 })
  | .BranchGreaterThanOrEquals pos =>
    let (b, st1) := popInt vm.stack
    let (a, st2) := popInt st1
    (.ok (), if a ≥ b then { vm with stack := st2, ip := pos }
             else { vm with stack := st2 })
  | .BranchLessThan pos =>
    let (b, st1) := popInt vm.stack
    let (a, st2) := popInt st1
    (.ok (), if a < b then { vm with stack := st2, ip := pos }
             else { vm with stack := st2 })
  | .BranchLessThanOrEquals pos =>
    let (b, st1) := popInt vm.stack
    let (a, st2) := popInt st1
    (.ok (), if a ≤ b then { vm with stack := st2, ip := pos }
             else { vm with stack := st2 })
  | .BranchEquals pos =>
    let (b, st1) := popInt vm.stack
    let (a, st2) := popInt st1
    (.ok (), if a = b then { vm with stack := st2, ip := pos }
             else { vm with stack := st2 })
  | .BranchNot pos =>
    let (v, st) := popInt vm.stack
    (.ok (), if v = 0 then { vm with stack := st, ip := pos }
             else { vm with stack := st })
  | .Jump pos => (.ok (), { vm with ip := pos })
  | _ => (.ok (), vm)

/-- The callee loop inlined in the `GosubWithParams` arm of
`run_script` (vm.rs lines 278-305): budget check, then either the
`Return` interception or a dispatch to `execute_instruction`.  Falling
off the end of the instruction list leaves the initial `Ok(0)`. -/
def gosubLoop (instrs : List Instr) : Nat → VMState → Except RtErr Int × VMState
  | 0, vm => (.error .budgetExceeded, vm)
  | fuel + 1, vm =>
    if h : vm.ip < instrs.length then
      if vm.maxInstructions ≤ vm.instructionCount then
        (.error .budgetExceeded, vm)
      else
        let vm1 := { vm with instructionCount := vm.instructionCount + 1,
                             ip := vm.ip + 1 }
        match instrs.get ⟨vm.ip, h⟩ with
        | .Return =>
          let (v, st) := popInt vm1.stack
          (.ok v, { vm1 with stack := st })
        | i =>
          match executeInstruction vm1 i with
          | (.ok _, vm2) => gosubLoop instrs fuel vm2
          | (.error e, vm2) => (.error e, vm2)
    else (.ok 0, vm)

/-- Outcome of one dispatched instruction of the main `run_script`
loop: continue the loop, break out of it (the function-level restore
still runs), or return from `run_script` immediately (the restore is
skipped — this is the `return Err(...)` of the checked `Multiply`
arm). -/
inductive StepOut where
  | cont (vm : VMState)
  | brk (r : Except RtErr Int) (vm : VMState)
  | ret (r : Except RtErr Int) (vm : VMState)

/-- One arm of the big `match` in the main loop of `run_script`
(vm.rs lines 96-335).  `fuel` is passed through to the inlined callee
loop of the `GosubWithParams` arm. -/
def mainStep (vm : VMState) (instr : Instr) (fuel : Nat) : StepOut :=
  match instr with
  | .PushConstantInt v => .cont { vm with stack := v :: vm.stack }
  | .PushIntLocal name =>
    let v := (varLookup vm.vars name).getD 0
    .cont { vm with stack := v :: vm.stack }
  | .PopIntLocal name =>
    let (v, st) := popInt vm.stack
    .cont { vm with stack := st, vars := varInsert vm.vars name v }
  | .Add =>
    let (b, st1) := popInt vm.stack
    let (a, st2) := popInt st1
    match checkedAdd a b with
    | some r => .cont { vm with stack := r :: st2 }
    | none => .brk (.error .overflow) { vm with stack := st2 }
  | .Subtract =>
    let (b, st1) := popInt vm.stack
    let (a, st2) := popInt st1
    match checkedSub a b with
    | some r => .cont { vm with stack := r :: st2 }
    | none => .brk (.error .overflow) { vm with stack := st2 }
  | .Multiply =>
    let (b, st1) := popInt vm.stack
    let (a, st2) := popInt st1
    match checkedMul a b with
    | some r => .cont { vm with stack := r :: st2 }
    | none => .ret (.error .overflow) { vm with stack := st2 }
  | .BranchGreaterThan pos =>
    let (b, st1) := popInt vm.stack
    let (a, st2) := popInt st1
    .cont (if a > b then { vm with stack := st2, ip := pos }
           else { vm with stack := st2 })
  | .BranchGreaterThanOrEquals pos =>
    let (b, st1) := popInt vm.stack
    let (a, st2) := popInt st1
    .cont (if a ≥ b then { vm with stack := st2, ip := pos }
           else { vm with stack := st2 })
  | .BranchLessThan pos =>
    let (b, st1) := popInt vm.stack
    let (a, st2) := popInt st1
    .cont (if a < b then { vm with stack := st2, ip := pos }
           else { vm with stack := st2 })
  | .BranchLessThanOrEquals pos =>
    let (b, st1) := popInt vm.stack
    let (a, st2) := popInt st1
    .cont (if a ≤ b then { vm with stack := st2, ip := pos }
           else { vm with stack := st2 })
  | .BranchEquals pos =>
    let (b, st1) := popInt vm.stack
    let (a, st2) := popInt st1
    .cont (if a = b then { vm with stack := st2, ip := pos }
           else { vm with stack := st2 })
  | .BranchNot pos =>
    let (v, st) := popInt vm.stack
    .cont (if v = 0 then { vm with stack := st, ip := pos }
           else { vm with stack := st })
  | .Jump pos => .cont { vm with ip := pos }
  | .GosubWithParams name =>
    let (k, st1) := popInt vm.stack
    let (argsRev, st2) := popN st1 k.toNat
    let args := argsRev.reverse
    match memoLookup vm.memoCache (name, args) with
    | some cached => .cont { vm with stack := cached :: st2 }
    | none =>
      let savedIp := vm.ip
      let savedScript := vm.currentScript
      let savedVariables := vm.vars
      let savedStack := st2
      let vmc := { vm with ip := 0, currentScript := some name,
                           vars := setupArgs args, stack := [] }
      match scriptLookup vm.scripts name with
      | none => .brk (.error (.scriptNotFound name)) vmc
      | some bc =>
        let (res, vm2) := gosubLoop bc.instructions fuel vmc
        let vm3 := { vm2 with ip := savedIp, currentScript := savedScript,
                              vars := savedVariables, stack := savedStack }
        match res with
        | .ok v =>
          .cont { vm3 with stack := v :: vm3.stack,
                           memoCache := memoInsert vm3.memoCache (name, args) v }
        | .error e => .brk (.error e) vm3
  | .Return =>
    let (v, st) := popInt vm.stack
    .brk (.ok v) { vm with stack := st }
  | _ => .cont vm

/-- How the main loop ended: `normal` flows into the function-level
state restore of `run_script`; `early` bypasses it. -/
inductive LoopRes where
  | normal (r : Except RtErr Int) (vm : VMState)
  | early (r : Except RtErr Int) (vm : VMState)

/-- The main `while self.ip < instructions.len()` loop of `run_script`
(vm.rs lines 86-336). -/
def mainLoop (instrs : List Instr) : Nat → VMState → LoopRes
  | 0, vm => .normal (.error .budgetExceeded) vm
  | fuel + 1, vm =>
    if h : vm.ip < instrs.length then
      if vm.maxInstructions ≤ vm.instructionCount then
        .normal (.error .budgetExceeded) vm
      else
        let vm1 := { vm with instructionCount := vm.instructionCount + 1,
                             ip := vm.ip + 1 }
        match mainStep vm1 (instrs.get ⟨vm.ip, h⟩) fuel with
        | .cont vm2 => mainLoop instrs fuel vm2
        | .brk r vm2 => .normal r vm2
        | .ret r vm2 => .early r vm2
    else .normal (.ok 0) vm

/-- `VM::run_script` (vm.rs lines 44-345).  Mirrors the source order:
clobber `variables` with the argument map, consult the memo cache,
look the script up, snapshot `(ip, current_script, variables, stack)`
(the variables snapshot is taken *after* the clobber), run the main
loop, and restore the snapshot — unless the loop exited through the
early `return` of the `Multiply` overflow arm. -/
def runScript (vm : VMState) (name : String) (args : List Int) :
    Except RtErr Int × VMState :=
  let vm := { vm with vars := setupArgs args }
  match memoLookup vm.memoCache (name, args) with
  | some cached => (.ok cached, vm)
  | none =>
    match scriptLookup vm.scripts name with
    | none => (.error (.scriptNotFound name), vm)
    | some bc =>
      let savedIp := vm.ip
      let savedScript := vm.currentScript
      let savedVariables := vm.vars
      let savedStack := vm.stack
      let vm2 := { vm with ip := 0, currentScript := some name,
                           vars := setupArgs args, stack := [] }
      match mainLoop bc.instructions (vm.maxInstructions + 1) vm2 with
      | .normal r vmf =>
        (r, { vmf with ip := savedIp, currentScript := savedScript,
                       vars := savedVariables, stack := savedStack })
      | .early r vmf => (r, vmf)

/-! ## AST (parser.rs)

The `AstKind` sum type, restricted to the variants that compiler.rs,
evaluator.rs or the recursion-elimination pass construct or inspect
(`Program`, `Integer`, `ConditionalExpression`, `AssignmentExpression`
are inert wildcard cases in all of them).  `If.returnStatement` holds
whatever the parser or the rewrite stored there: the rewrite stores a
`Return` node, while a non-`Return` value (such as the parser's
`ReturnType` placeholder) makes both the compiler and the evaluator
treat the then-branch as empty. -/

inductive Ty where
  | int
  | boolean
  | string
  | other
  deriving Repr, DecidableEq

inductive AstKind where
  | NumericLiteral (n : Int)
  | StringLiteral (s : String)
  | Identifier (s : String)
  | Proc (s : String)
  | BinaryExpression (lhs rhs : AstKind) (operator : String)
  | Define (name : String) (varType : Ty) (value : AstKind)
  | Trigger (name kind : AstKind) (args : List AstKind) (body : AstKind)
      (returnType : AstKind)
  | LocalVar (name : String)
  | ReturnType
  | Return (e : AstKind)
  | If (expression value returnStatement : AstKind)
  | While (condition body : AstKind)
  | Block (stmts : List AstKind)
  | FunctionCall (name : String) (arguments : List AstKind)
  | Assignment (target value : AstKind)
  | ScriptCall (script : AstKind) (arguments : List AstKind)
  deriving Repr

/-- Rust `trim_start_matches('$')`: strip every leading dollar sign. -/
def trimDollar (s : String) : String :=
  String.mk (s.data.dropWhile (fun c => c = '$'))

/-! ## The recursion-elimination pass (compiler.rs lines 84-679) -/

mutual

/-- `Compiler::contains_recursive_call`: does the node mention a
`ScriptCall` to the current script?  `cs` is `self.current_script`. -/
def containsRecursiveCall (cs : Option String) : AstKind → Bool
  | .ScriptCall script _ =>
    match script, cs with
    | .Identifier scriptName, some current => scriptName = current
    | _, _ => false
  | .Block statements => containsRecursiveCallList cs statements
  | .If expression value returnStatement =>
    containsRecursiveCall cs expression || containsRecursiveCall cs value ||
      containsRecursiveCall cs returnStatement
  | .While condition body =>
    containsRecursiveCall cs condition || containsRecursiveCall cs body
  | .Return e => containsRecursiveCall cs e
  | .Assignment target value =>
    containsRecursiveCall cs target || containsRecursiveCall cs value
  | .Define _ _ value => containsRecursiveCall cs value
  | .BinaryExpression lhs rhs _ =>
    containsRecursiveCall cs lhs || containsRecursiveCall cs rhs
  | .FunctionCall _ arguments => containsRecursiveCallList cs arguments
  | _ => false

def containsRecursiveCallList (cs : Option String) : List AstKind → Bool
  | [] => false
  | a :: rest => containsRecursiveCall cs a || containsRecursiveCallList cs rest

end

mutual

/-- The local `count_recursive_calls` of the transform: counts direct
self `ScriptCall`s reachable through `FunctionCall` arguments and
`BinaryExpression` children (it does *not* descend into a
`ScriptCall`'s own arguments). -/
def countRecursiveCalls (scriptName : String) : AstKind → Int
  | .ScriptCall script _ =>
    match script with
    | .Identifier n => if n = scriptName then 1 else 0
    | _ => 0
  | .FunctionCall _ arguments => countRecursiveCallsList scriptName arguments
  | .BinaryExpression lhs rhs _ =>
    countRecursiveCalls scriptName lhs + countRecursiveCalls scriptName rhs
  | _ => 0

def countRecursiveCallsList (scriptName : String) : List AstKind → Int
  | [] => 0
  | a :: rest =>
    countRecursiveCalls scriptName a + countRecursiveCallsList scriptName rest

end

mutual

/-- The local `has_nested_recursion` of the transform: a self-call one
of whose own arguments contains another self-call. -/
def hasNestedRecursion (scriptName : String) : AstKind → Bool
  | .ScriptCall script arguments =>
    match script with
    | .Identifier n =>
      if n = scriptName then hasNestedRecursionList scriptName arguments
      else false
    | _ => false
  | .FunctionCall _ arguments => hasNestedRecursionList scriptName arguments
  | .BinaryExpression lhs rhs _ =>
    hasNestedRecursion scriptName lhs || hasNestedRecursion scriptName rhs
  | _ => false

def hasNestedRecursionList (scriptName : String) : List AstKind → Bool
  | [] => false
  | a :: rest =>
    hasNestedRecursion scriptName a || hasNestedRecursionList scriptName rest

end

/-- The statement-collection loop of the transform: the *last*
`Return` statement whose expression contains a recursive call (each
match overwrites `recursive_expr`). -/
def findRecursiveExpr (cs : Option String) : List AstKind → Option AstKind
  | [] => none
  | stmt :: rest =>
    match findRecursiveExpr cs rest with
    | some e => some e
    | none =>
      match stmt with
      | .Return expr => if containsRecursiveCall cs expr then some expr else none
      | _ => none

/-- `base_cases`: every `If` statement of the block, in order. -/
def baseCasesOf (statements : List AstKind) : List AstKind :=
  statements.filter fun s =>
    match s with
    | .If _ _ _ => true
    | _ => false

/-- Base-case return value for the single-recursion rewrite: the
numeric literal returned by the first base case, `0` in every other
shape (including the parser's un-wrapped `return_statement`). -/
def baseCaseValue (baseCases : List AstKind) : Int :=
  match baseCases.head? with
  | some (.If _ _ returnStatement) =>
    match returnStatement with
    | .Return e =>
      match e with
      | .NumericLiteral n => n
      | _ => 0
    | _ => 0
  | _ => 0

/-- The `i = calc(i + 1)` counter increment every rewritten loop ends
with. -/
def incrementCounter : AstKind :=
  .Assignment (.LocalVar "i")
    (.FunctionCall "calc"
      [.BinaryExpression (.LocalVar "i") (.NumericLiteral 1) "+"])

/-- The result-update statement of the single-recursion rewrite: when
the recursive expression is `calc(BinaryExpression{_, _, op})` the loop
gets `result = calc(result <op> i)` (the source's `"*"`, `"+"` and
wildcard arms build the same node with the respective operator); any
other shape contributes no update statement. -/
def singleUpdate (expr : AstKind) : List AstKind :=
  match expr with
  | .FunctionCall name arguments =>
    if name = "calc" then
      match arguments.head? with
      | some (.BinaryExpression _ _ operator) =>
        [.Assignment (.LocalVar "result")
          (.FunctionCall "calc"
            [.BinaryExpression (.LocalVar "result") (.LocalVar "i") operator])]
      | _ => []
    else []
  | _ => []

/-- The tail-with-accumulator rewrite (compiler.rs lines 183-258).
Note it multiplies the accumulator (`acc = calc(n * acc)`) whatever the
original function computed, and it *replaces* the original base cases
with its own `n <= 1` guard. -/
def tailRewrite : List AstKind :=
  [.Define "n" .int (.LocalVar "arg0"),
   .Define "acc" .int (.LocalVar "arg1"),
   .If (.BinaryExpression (.LocalVar "n") (.NumericLiteral 1) "<=")
     (.LocalVar "acc")
     (.Return (.LocalVar "acc")),
   .While (.BinaryExpression (.LocalVar "n") (.NumericLiteral 1) ">")
     (.Block
       [.Assignment (.LocalVar "acc")
          (.FunctionCall "calc"
            [.BinaryExpression (.LocalVar "n") (.LocalVar "acc") "*"]),
        .Assignment (.LocalVar "n")
          (.FunctionCall "calc"
            [.BinaryExpression (.LocalVar "n") (.NumericLiteral 1) "-"])]),
   .Return (.LocalVar "acc")]

/-- The single-recursion rewrite body (appended after the original base
cases). -/
def singleRewrite (paramName : String) (baseCases : List AstKind)
    (expr : AstKind) : List AstKind :=
  [.Define "result" .int (.NumericLiteral (baseCaseValue baseCases)),
   .Define "i" .int (.NumericLiteral 1),
   .While (.BinaryExpression (.LocalVar "i") (.LocalVar paramName) "<=")
     (.Block (singleUpdate expr ++ [incrementCounter])),
   .Return (.LocalVar "result")]

/-- The double-recursion (Fibonacci) rewrite body (appended after the
original base cases): hard-coded base cases 0, 1, 1 and the standard
iterative Fibonacci loop, whatever the original base values or
operator were. -/
def doubleRewrite (paramName : String) : List AstKind :=
  [.If (.BinaryExpression (.LocalVar paramName) (.NumericLiteral 0) "=")
     (.NumericLiteral 0) (.Return (.NumericLiteral 0)),
   .If (.BinaryExpression (.LocalVar paramName) (.NumericLiteral 1) "=")
     (.NumericLiteral 1) (.Return (.NumericLiteral 1)),
   .If (.BinaryExpression (.LocalVar paramName) (.NumericLiteral 2) "=")
     (.NumericLiteral 1) (.Return (.NumericLiteral 1)),
   .Define "prev" .int (.NumericLiteral 0),
   .Define "curr" .int (.NumericLiteral 1),
   .Define "next" .int (.NumericLiteral 1),
   .Define "i" .int (.NumericLiteral 2),
   .While (.BinaryExpression (.LocalVar "i") (.LocalVar paramName) "<=")
     (.Block
       [.Assignment (.LocalVar "next")
          (.FunctionCall "calc"
            [.BinaryExpression (.LocalVar "prev") (.LocalVar "curr") "+"]),
        .Assignment (.LocalVar "prev") (.LocalVar "curr"),
        .Assignment (.LocalVar "curr") (.LocalVar "next"),
        incrementCounter]),
   .Return (.LocalVar "curr")]

/-- `Compiler::transform_recursive_to_iterative_with_param`.  `cs` is
`self.current_script` (always `some` when called from
`compile_script`). -/
def transformRecursiveToIterativeWithParam (cs : Option String)
    (node : AstKind) (paramName : String) : AstKind :=
  match node with
  | .Block statements =>
    match cs with
    | none => node
    | some currentScript =>
      let baseCases := baseCasesOf statements
      match findRecursiveExpr cs statements with
      | none => node
      | some expr =>
        if baseCases.isEmpty then node
        else
          let isTailRecursive :=
            match expr with
            | .ScriptCall script arguments =>
              match script with
              | .Identifier n => n = currentScript && arguments.length = 2
              | _ => false
            | _ => false
          if isTailRecursive then .Block tailRewrite
          else if hasNestedRecursion currentScript expr then node
          else
            let recursiveCalls := countRecursiveCalls currentScript expr
            if recursiveCalls = 1 then
              .Block (baseCases ++ singleRewrite paramName baseCases expr)
            else if recursiveCalls = 2 then
              .Block (baseCases ++ doubleRewrite paramName)
            else node
  | _ => node

/-! ## AST lowering (compiler.rs `compile_node` and `compile_script`)

Panics of the source (`Unsupported operator`, `Unknown operator in
calc()`, `Unknown function`, `Script call target must be an
identifier`) are modelled as `Except.error` carrying the message.

The source recursion is structural on the AST; the embedding adds a
fuel argument, decremented on every recursive call, so that the
definition is structurally recursive on the fuel and computes by kernel
reduction.  Fuel `sizeOf ast` always suffices, because every recursive
call strictly decreases `sizeOf` (by at least one) and every leaf has
positive size; the entry point `compileNode` passes exactly that, so
its fuel-exhaustion branch is unreachable. -/

mutual

def compileNodeF : Nat → AstKind → List Instr → Except String (List Instr)
  | 0, _, _ => .error "compiler recursion fuel exhausted"
  | fuel + 1, ast, bc =>
    match ast with
    | .NumericLiteral n => .ok (bc ++ [.PushConstantInt n])
    | .StringLiteral s => .ok (bc ++ [.PushConstantString s])
    | .LocalVar name => .ok (bc ++ [.PushIntLocal (trimDollar name)])
    | .BinaryExpression lhs rhs operator => do
      let bc1 ← compileNodeF fuel lhs bc
      let bc2 ← compileNodeF fuel rhs bc1
      match operator with
      | "=" =>
        .ok (bc2 ++ [.BranchEquals (bc2.length + 3), .PushConstantInt 0,
                     .Jump (bc2.length + 4), .PushConstantInt 1])
      | "<" =>
        .ok (bc2 ++ [.BranchLessThan (bc2.length + 3), .PushConstantInt 0,
                     .Jump (bc2.length + 4), .PushConstantInt 1])
      | "<=" =>
        .ok (bc2 ++ [.BranchLessThanOrEquals (bc2.length + 3),
                     .PushConstantInt 0, .Jump (bc2.length + 4),
                     .PushConstantInt 1])
      | ">" =>
        .ok (bc2 ++ [.BranchGreaterThan (bc2.length + 3), .PushConstantInt 0,
                     .Jump (bc2.length + 4), .PushConstantInt 1])
      | ">=" =>
        .ok (bc2 ++ [.BranchGreaterThanOrEquals (bc2.length + 3),
                     .PushConstantInt 0, .Jump (bc2.length + 4),
                     .PushConstantInt 1])
      | "+" => .ok (bc2 ++ [.Add])
      | "-" => .ok (bc2 ++ [.Subtract])
      | "*" => .ok (bc2 ++ [.Multiply])
      | op => .error ("Unsupported operator: " ++ op)
    | .Assignment target value => do
      let bc1 ← compileNodeF fuel value bc
      match target with
      | .LocalVar name => .ok (bc1 ++ [.PopIntLocal (trimDollar name)])
      | _ => .ok bc1
    | .Define name _ value => do
      let bc1 ← compileNodeF fuel value bc
      .ok (bc1 ++ [.PopIntLocal (trimDollar name)])
    | .If expression value returnStatement => do
      let bc1 ← compileNodeF fuel expression bc
      let jumpIndex := bc1.length
      let bc2 := bc1 ++ [Instr.BranchNot 0]
      let bc3 ←
        match returnStatement with
        | .Return expr => do
          let t ← compileNodeF fuel expr bc2
          pure (t ++ [Instr.Return])
        | _ => pure bc2
      let elseJumpIndex := bc3.length
      let bc4 := bc3 ++ [Instr.Jump 0]
      let bc5 := bc4.set jumpIndex (Instr.BranchNot bc4.length)
      let bc6 ← compileNodeF fuel value bc5
      .ok (bc6.set elseJumpIndex (Instr.Jump bc6.length))
    | .While condition body => do
      let loopStart := bc.length
      let bc1 ← compileNodeF fuel condition bc
      let branchPos := bc1.length
      let bc2 := bc1 ++ [Instr.BranchNot 0]
      let bc3 ← compileNodeF fuel body bc2
      let bc4 := bc3 ++ [Instr.Jump loopStart]
      .ok (bc4.set branchPos (Instr.BranchNot bc4.length))
    | .Block statements => compileNodeListF fuel statements bc
    | .Return e => do
      let bc1 ← compileNodeF fuel e bc
      .ok (bc1 ++ [Instr.Return])
    | .FunctionCall name arguments =>
      if name = "calc" then
        match arguments with
        | .BinaryExpression lhs rhs operator :: _ => do
          let bc1 ← compileNodeF fuel lhs bc
          let bc2 ← compileNodeF fuel rhs bc1
          match operator with
          | "+" => .ok (bc2 ++ [Instr.Add])
          | "-" => .ok (bc2 ++ [Instr.Subtract])
          | "*" => .ok (bc2 ++ [Instr.Multiply])
          | "/" => .ok (bc2 ++ [Instr.Divide])
          | op => .error ("Unknown operator in calc(): " ++ op)
        | arg :: _ => compileNodeF fuel arg bc
        | [] => .ok bc
      else if name = "abs" then
        match arguments with
        | arg :: _ => do
          let bc1 ← compileNodeF fuel arg bc
          .ok (bc1 ++ [Instr.Abs])
        | [] => .ok bc
      else .error ("Unknown function: " ++ name)
    | .ScriptCall script arguments => do
      let bc1 ← compileNodeListF fuel arguments bc
      let bc2 := bc1 ++ [Instr.PushConstantInt arguments.length]
      match script with
      | .Identifier scriptName => .ok (bc2 ++ [Instr.GosubWithParams scriptName])
      | _ => .error "Script call target must be an identifier"
    | _ => .ok bc

def compileNodeListF : Nat → List AstKind → List Instr → Except String (List Instr)
  | 0, _, _ => .error "compiler recursion fuel exhausted"
  | _ + 1, [], bc => .ok bc
  | fuel + 1, a :: rest, bc => do
    let bc1 ← compileNodeF fuel a bc
    compileNodeListF fuel rest bc1

end

mutual

/-- A computable size measure on the AST, used as compiler fuel: every
recursive edge of `compileNodeF`/`compileNodeListF` strictly decreases
it, so fuel `astSize ast` makes the fuel-exhaustion branch
unreachable. -/
def astSize : AstKind → Nat
  | .BinaryExpression lhs rhs _ => 1 + astSize lhs + astSize rhs
  | .Define _ _ value => 1 + astSize value
  | .Trigger name kind args body returnType =>
    1 + astSize name + astSize kind + astSizeList args + astSize body +
      astSize returnType
  | .Return e => 1 + astSize e
  | .If expression value returnStatement =>
    1 + astSize expression + astSize value + astSize returnStatement
  | .While condition body => 1 + astSize condition + astSize body
  | .Block statements => 1 + astSizeList statements
  | .FunctionCall _ arguments => 1 + astSizeList arguments
  | .Assignment target value => 1 + astSize target + astSize value
  | .ScriptCall script arguments => 1 + astSize script + astSizeList arguments
  | _ => 1

def astSizeList : List AstKind → Nat
  | [] => 1
  | a :: rest => 1 + astSize a + astSizeList rest

end

/-- `Compiler::compile_node`, with sufficient fuel. -/
def compileNode (ast : AstKind) (bc : List Instr) :
    Except String (List Instr) :=
  compileNodeF (astSize ast) ast bc

/-- The `args.iter().skip(1).step_by(2)` traversal of a trigger's
parameter list: the entries at odd positions. -/
def oddEntries : List AstKind → List AstKind
  | [] => []
  | [_] => []
  | _ :: b :: rest => b :: oddEntries rest

/-- The declared (dollar-stripped) parameter names of a trigger, in
order: the `LocalVar` entries at odd positions of its `args`. -/
def paramNames (args : List AstKind) : List String :=
  (oddEntries args).filterMap fun a =>
    match a with
    | .LocalVar n => some (trimDollar n)
    | _ => none

/-- `Compiler::compile_script`: the `argN`-rebinding prologue, the
recursion-elimination pass (only when at least one parameter exists),
the body lowering, and the trailing-`Return` completion. -/
def compileScript (name : String) (ast : AstKind) : Except String ByteCodeL :=
  match ast with
  | .Trigger _ _ args body _ => do
    let params := paramNames args
    let prologue :=
      ((List.range params.length).zip params).foldl
        (fun acc p => acc ++ [Instr.PushIntLocal (argName p.1),
                              Instr.PopIntLocal p.2]) []
    let transformedBody :=
      match params.head? with
      | some param =>
        transformRecursiveToIterativeWithParam (some name) body param
      | none => body
    let instrs ← compileNode transformedBody prologue
    let instrs :=
      if instrs.getLast? = some Instr.Return then instrs
      else instrs ++ [Instr.Return]
    pure ⟨name, instrs⟩
  | _ => do
    let instrs ← compileNode ast []
    let instrs :=
      if instrs.getLast? = some Instr.Return then instrs
      else instrs ++ [Instr.Return]
    pure ⟨name, instrs⟩

/-! ## AST evaluator (evaluator.rs)

`Evaluator::eval` and `Evaluator::eval_script`.  The source recursion
is unbounded (`eval_script` re-enters `eval` on a registered script's
body, and `While` re-evaluates its condition), so the embedding takes a
fuel argument that is consumed once per script invocation and once per
loop iteration; `EvErr.outOfFuel` stands for the source not having
terminated within that recursion budget.  The source's arithmetic is
*unchecked* `i32` arithmetic (wrapping in release builds, aborting in
debug builds); it is modelled as wrapping, and no theorem below depends
on a wrapped value.  Panics are modelled as errors:
`divByZero` (`left / right` with a zero divisor), `unknownOperator`,
`invalidAssignTarget`, `calcNoArg` (`"calc requires one argument"`),
`unknownFunction`, `invalidScriptCallTarget`, `scriptNotFound`. -/

inductive EvErr where
  | outOfFuel
  | scriptNotFound (name : String)
  | unknownOperator (op : String)
  | unknownFunction (name : String)
  | invalidAssignTarget
  | invalidScriptCallTarget
  | calcNoArg
  | divByZero
  deriving Repr, DecidableEq

/-- Script-registry lookup for the evaluator. -/
def evScriptLookup (m : List (String × AstKind)) (k : String) :
    Option AstKind :=
  match m with
  | [] => none
  | p :: rest => if p.1 = k then some p.2 else evScriptLookup rest k

/-- `eval_script`'s parameter binding: the `LocalVar` entries of the
trigger's `args`, dollar-stripped, zipped with the argument values. -/
def evalParamNames (args : List AstKind) : List String :=
  args.filterMap fun a =>
    match a with
    | .LocalVar n => some (trimDollar n)
    | _ => none

/-- Every `AstKind` has positive size (used by the termination
argument of the evaluator). -/
theorem sizeOfAstPos (a : AstKind) : 0 < sizeOf a := by
  cases a <;> simp_arith

mutual

def evalAst (sc : List (String × AstKind)) (fuel : Nat)
    (vars : List (String × Int)) :
    AstKind → Except EvErr (Int × List (String × Int))
  | .NumericLiteral n => .ok (n, vars)
  | .StringLiteral _ => .ok (0, vars)
  | .LocalVar name => .ok ((varLookup vars (trimDollar name)).getD 0, vars)
  | .BinaryExpression lhs rhs operator => do
    let (l, v1) ← evalAst sc fuel vars lhs
    let (r, v2) ← evalAst sc fuel v1 rhs
    match operator with
    | "+" => .ok (wrap32 (l + r), v2)
    | "-" => .ok (wrap32 (l - r), v2)
    | "*" => .ok (wrap32 (l * r), v2)
    | "/" => if r = 0 then .error .divByZero else .ok (l.tdiv r, v2)
    | "<=" => .ok (if l ≤ r then 1 else 0, v2)
    | ">=" => .ok (if l ≥ r then 1 else 0, v2)
    | "<" => .ok (if l < r then 1 else 0, v2)
    | ">" => .ok (if l > r then 1 else 0, v2)
    | "=" => .ok (if l = r then 1 else 0, v2)
    | op => .error (.unknownOperator op)
  | .Assignment target value =>
    match target with
    | .LocalVar name => do
      let (v, v1) ← evalAst sc fuel vars value
      .ok (v, varInsert v1 (trimDollar name) v)
    | _ => .error .invalidAssignTarget
  | .Define name _ value => do
    let (v, v1) ← evalAst sc fuel vars value
    .ok (v, varInsert v1 (trimDollar name) v)
  | .If expression value returnStatement => do
    let (c, v1) ← evalAst sc fuel vars expression
    if c ≠ 0 then evalAst sc fuel v1 returnStatement
    else evalAst sc fuel v1 value
  | .While condition body => evalWhileLoop sc fuel vars condition body 0
  | .Block statements => evalStmts sc fuel vars statements 0
  | .Return e => evalAst sc fuel vars e
  | .FunctionCall name arguments =>
    if name = "calc" then
      match arguments with
      | arg :: _ => evalAst sc fuel vars arg
      | [] => .error .calcNoArg
    else .error (.unknownFunction name)
  | .ScriptCall script arguments =>
    match script with
    | .Identifier scriptName => do
      let (vals, v1) ← evalArgs sc fuel vars arguments
      evalScript sc fuel v1 scriptName vals
    | _ => .error .invalidScriptCallTarget
  | .Trigger _ _ _ body _ => evalAst sc fuel vars body
  | _ => .ok (0, vars)
termination_by ast => (fuel, sizeOf ast)

/-- The `while self.eval(condition) != 0` loop of the `While` arm,
with its `last_value` accumulator. -/
def evalWhileLoop (sc : List (String × AstKind)) (fuel : Nat)
    (vars : List (String × Int)) (condition body : AstKind) (last : Int) :
    Except EvErr (Int × List (String × Int)) := do
  let (c, v1) ← evalAst sc fuel vars condition
  if c = 0 then .ok (last, v1)
  else do
    let (b, v2) ← evalAst sc fuel v1 body
    match fuel with
    | 0 => .error .outOfFuel
    | fuel' + 1 => evalWhileLoop sc fuel' v2 condition body b
termination_by (fuel, sizeOf condition + sizeOf body)
decreasing_by
all_goals first
  | decreasing_tactic
  | (have h1 := sizeOfAstPos condition
     have h2 := sizeOfAstPos body
     apply Prod.Lex.right
     omega)

/-- The statement loop of the `Block` arm: a `Return` statement ends
the block with its expression's value, an `If` whose value is non-zero
ends the block with that value (a *zero* result falls through), and any
other statement updates `last_value`. -/
def evalStmts (sc : List (String × AstKind)) (fuel : Nat)
    (vars : List (String × Int)) :
    List AstKind → Int → Except EvErr (Int × List (String × Int))
  | [], last => .ok (last, vars)
  | stmt :: rest, last =>
    match stmt with
    | .Return expr => evalAst sc fuel vars expr
    | ifStmt@(.If _ _ _) => do
      let (res, v1) ← evalAst sc fuel vars ifStmt
      if res ≠ 0 then .ok (res, v1)
      else evalStmts sc fuel v1 rest last
    | other => do
      let (res, v1) ← evalAst sc fuel vars other
      evalStmts sc fuel v1 rest res
termination_by l _ => (fuel, sizeOf l)

/-- Left-to-right evaluation of a `ScriptCall`'s argument list. -/
def evalArgs (sc : List (String × AstKind)) (fuel : Nat)
    (vars : List (String × Int)) :
    List AstKind → Except EvErr (List Int × List (String × Int))
  | [] => .ok ([], vars)
  | a :: rest => do
    let (v, v1) ← evalAst sc fuel vars a
    let (vs, v2) ← evalArgs sc fuel v1 rest
    .ok (v :: vs, v2)
termination_by l => (fuel, sizeOf l)

/-- `Evaluator::eval_script`: look the script up, save the caller's
variables, bind the declared parameter names to the argument values in
a cleared map, evaluate the body (or the whole node when it is not a
`Trigger`), restore the caller's variables, return the result. -/
def evalScript (sc : List (String × AstKind)) (fuel : Nat)
    (vars : List (String × Int)) (name : String) (args : List Int) :
    Except EvErr (Int × List (String × Int)) :=
  match evScriptLookup sc name with
  | none => .error (.scriptNotFound name)
  | some script =>
    let newVars :=
      match script with
      | .Trigger _ _ sargs _ _ =>
        ((evalParamNames sargs).zip args).foldl
          (fun m p => varInsert m p.1 p.2) []
      | _ => []
    match fuel with
    | 0 => .error .outOfFuel
    | fuel' + 1 => do
      let (result, _) ←
        match script with
        | .Trigger _ _ _ body _ => evalAst sc fuel' newVars body
        | other => evalAst sc fuel' newVars other
      .ok (result, vars)
termination_by (fuel, 0)

end

/-! ## Lexer (lexer.rs and token.rs)

`Lexer::tokenize`.  The `Kind` enum of token.rs, extended with the two
comment kinds that lexer.rs attaches to comment tokens.  Character
classes (`is_alphabetic`, `is_alphanumeric`) are Unicode in Rust and
ASCII in the Lean `Char` helpers; every theorem below lexes ASCII
source only, where the two agree. -/

inductive Kind where
  | RBracket
  | LBracket
  | RParen
  | LParen
  | LBrace
  | RBrace
  | Semicolon
  | Comma
  | Equals
  | BinaryOperator
  | ComparisonOperator
  | Underscore
  | ScriptCall
  | Trigger
  | Command
  | Def
  | Return
  | If
  | While
  | Identifier
  | LocalVar
  | Number
  | SingleLineComment
  | MultiLineComment
  | EOF
  deriving Repr, DecidableEq

structure TokenL where
  line : Nat
  position : Nat
  kind : Kind
  value : String
  deriving Repr, DecidableEq

/-- Lexing failures: `"Unterminated multi-line comment"` and
`"Unrecognized character c"`. -/
inductive LexErr where
  | unterminatedComment (line : Nat) (position : Nat)
  | unrecognizedChar (c : Char) (line : Nat) (position : Nat)
  deriving Repr, DecidableEq

/-- `Lexer::get_keyword_token` (the source wraps the result in `Ok`;
the `Err` path is dead). -/
def getKeywordToken (ident : String) : Kind :=
  match ident with
  | "proc" | "clientscript" | "label" | "debugproc" => .Trigger
  | "def_int" | "def_string" | "def_coord" | "def_loc"
  | "def_obj" | "def_npc" | "def_boolean" | "def_namedobj"
  | "def_playeruid" | "def_npcuid" | "def_stat" | "def_component"
  | "def_interface" | "def_inv" | "def_enum" | "def_struct"
  | "def_param" | "def_dbtable" | "def_dbrow" | "def_dbcolumn"
  | "def_varp" | "def_mesanim" => .Def
  | "if" => .If
  | "while" => .While
  | "return" => .Return
  | "calc" => .Command
  | _ => .Identifier

/-- The backward scan of the `'='` arm, over the already-emitted
tokens in reverse order (`for i in (0..tokens.len()).rev()`): an `If`
or `While` met first means comparison; a `Def` or `LocalVar` met first
stops the scan, and reaching the beginning leaves assignment. -/
def scanBackward : List TokenL → Bool
  | [] => false
  | t :: rest =>
    if t.kind = .If ∨ t.kind = .While then true
    else if t.kind = .Def ∨ t.kind = .LocalVar then false
    else scanBackward rest

/-- The inner `while depth > 0` loop of the multi-line-comment arm.
Returns the comment body, the remaining characters, and the updated
line and position counters. -/
def multiComment (chars : List Char) (line pos depth : Nat) (prev : Char)
    (acc : List Char) : Except LexErr (List Char × List Char × Nat × Nat) :=
  match chars with
  | [] => .error (.unterminatedComment line pos)
  | c :: rest =>
    let pos1 := pos + 1
    let lp := if c = '\n' then (line + 1, 0) else (line, pos1)
    if prev = '/' ∧ c = '*' then
      multiComment rest lp.1 lp.2 (depth + 1) c (acc ++ [c])
    else if prev = '*' ∧ c = '/' then
      if depth - 1 = 0 then .ok (acc.dropLast, rest, lp.1, lp.2)
      else multiComment rest lp.1 lp.2 (depth - 1) c (acc ++ [c])
    else multiComment rest lp.1 lp.2 depth c (acc ++ [c])

/-- The character-dispatch loop of `Lexer::tokenize`.  `acc` holds the
emitted tokens in reverse order, so the backward scan of the `'='` arm
is a forward scan of `acc`; the final token list is reversed on
completion, after the `EOF` token is added.  The source loop consumes
at least one character per iteration; the embedding recurses on a fuel
argument instead, which `tokenize` seeds with one more than the input
length, so the fuel-exhaustion branch is unreachable. -/
def tokenizeLoop : Nat → List Char → Nat → Nat → List TokenL →
    Except LexErr (List TokenL)
  | 0, _, _, _, _ => .ok []
  | fuel + 1, chars, line, pos, acc =>
    match chars with
    | [] =>
      .ok ((⟨line, pos, .EOF, "EndOfFile"⟩ : TokenL) :: acc).reverse
    | c :: rest =>
      let pos1 := pos + 1
      if c = '\n' then tokenizeLoop fuel rest (line + 1) 0 acc
      else if c.isWhitespace then tokenizeLoop fuel rest line pos1 acc
      else if c = '[' then
        tokenizeLoop fuel rest line pos1 (⟨line, pos1, .LBracket, "["⟩ :: acc)
      else if c = ']' then
        tokenizeLoop fuel rest line pos1 (⟨line, pos1, .RBracket, "]"⟩ :: acc)
      else if c = '{' then
        tokenizeLoop fuel rest line pos1
          (⟨line, pos1, .LBrace, String.mk [c]⟩ :: acc)
      else if c = '}' then
        tokenizeLoop fuel rest line pos1
          (⟨line, pos1, .RBrace, String.mk [c]⟩ :: acc)
      else if c = '~' then
        tokenizeLoop fuel rest line pos1 (⟨line, pos1, .ScriptCall, "~"⟩ :: acc)
      else if c = '(' then
        tokenizeLoop fuel rest line pos1 (⟨line, pos1, .LParen, "("⟩ :: acc)
      else if c = ')' then
        tokenizeLoop fuel rest line pos1 (⟨line, pos1, .RParen, ")"⟩ :: acc)
      else if c = '$' then
        tokenizeLoop fuel rest line pos1 (⟨line, pos1, .LocalVar, "$"⟩ :: acc)
      else if c = '=' then
        let kind := if scanBackward acc then Kind.ComparisonOperator
                    else Kind.Equals
        tokenizeLoop fuel rest line pos1 (⟨line, pos1, kind, "="⟩ :: acc)
      else if c = '<' then
        match rest with
        | '=' :: rest2 =>
          tokenizeLoop fuel rest2 line (pos1 + 1)
            (⟨line, pos1 + 1, .ComparisonOperator, "<="⟩ :: acc)
        | other =>
          tokenizeLoop fuel other line pos1
            (⟨line, pos1, .ComparisonOperator, "<"⟩ :: acc)
      else if c = '>' then
        match rest with
        | '=' :: rest2 =>
          tokenizeLoop fuel rest2 line (pos1 + 1)
            (⟨line, pos1 + 1, .ComparisonOperator, ">="⟩ :: acc)
        | other =>
          tokenizeLoop fuel other line pos1
            (⟨line, pos1, .ComparisonOperator, ">"⟩ :: acc)
      else if c = '+' ∨ c = '-' ∨ c = '*' then
        tokenizeLoop fuel rest line pos1
          (⟨line, pos1, .BinaryOperator, String.mk [c]⟩ :: acc)
      else if c = '/' then
        match rest with
        | '/' :: rest2 =>
          let pos2 := pos1 + 1
          let comment := rest2.takeWhile (fun x => x ≠ '\n')
          let rest3 := (rest2.dropWhile (fun x => x ≠ '\n')).drop 1
          let pos3 := pos2 + comment.length
          tokenizeLoop fuel rest3 line pos3
            (⟨line, pos3, .SingleLineComment, String.mk comment⟩ :: acc)
        | '*' :: rest2 =>
          let pos2 := pos1 + 1
          match multiComment rest2 line pos2 1 (Char.ofNat 0) [] with
          | .ok (content, rest3, line3, pos3) =>
            tokenizeLoop fuel rest3 line3 pos3
              (⟨line3, pos3, .MultiLineComment, String.mk content⟩ :: acc)
          | .error e => .error e
        | other =>
          tokenizeLoop fuel other line pos1
            (⟨line, pos1, .BinaryOperator, "/"⟩ :: acc)
      else if c = ';' then
        tokenizeLoop fuel rest line pos1 (⟨line, pos1, .Semicolon, ";"⟩ :: acc)
      else if c = ',' then
        tokenizeLoop fuel rest line pos1 (⟨line, pos1, .Comma, ","⟩ :: acc)
      else if c = '_' then
        tokenizeLoop fuel rest line pos1
          (⟨line, pos1, .Underscore, "_"⟩ :: acc)
      else if c.isAlpha ∨ c = '_' then
        let identChars := c :: rest.takeWhile (fun x => x.isAlphanum ∨ x = '_')
        let rest2 := rest.dropWhile (fun x => x.isAlphanum ∨ x = '_')
        let ident := String.mk identChars
        let pos2 := pos1 + ident.length
        tokenizeLoop fuel rest2 line pos2
          (⟨line, pos2, getKeywordToken ident, ident⟩ :: acc)
      else if c.isDigit then
        let numChars := c :: rest.takeWhile (fun x => x.isDigit)
        let rest2 := rest.dropWhile (fun x => x.isDigit)
        let number := String.mk numChars
        let pos2 := pos1 + number.length
        tokenizeLoop fuel rest2 line pos2
          (⟨line, pos2, .Number, number⟩ :: acc)
      else .error (.unrecognizedChar c line pos1)

/-- `Lexer::tokenize` on a whole source string (`Lexer::new` starts
with `line = 0` and `position = 0`). -/
def tokenize (input : String) : Except LexErr (List TokenL) :=
  tokenizeLoop (input.data.length + 1) input.data 0 0 []

/-! ## Concrete exemplar scripts

Hand-written recursive ASTs in the shape the data model prescribes (a
`Block` of base-case `If`s whose `returnStatement` is a `Return` node,
followed by a `Return` of the recursive expression), one per recognized
recursion family, together with their compiled bytecode and a VM with
that bytecode registered. -/

/-- `[proc,fact](int $n)(int) if ($n <= 1) { return(1); }
return(calc($n * ~fact(calc($n - 1))));` — the single-recursion
exemplar. -/
def factAst : AstKind :=
  .Trigger (.Identifier "fact") (.Proc "proc")
    [.Identifier "int", .LocalVar "n"]
    (.Block
      [.If (.BinaryExpression (.LocalVar "n") (.NumericLiteral 1) "<=")
         (.Block []) (.Return (.NumericLiteral 1)),
       .Return (.FunctionCall "calc"
         [.BinaryExpression (.LocalVar "n")
            (.ScriptCall (.Identifier "fact")
              [.FunctionCall "calc"
                [.BinaryExpression (.LocalVar "n") (.NumericLiteral 1) "-"]])
            "*"])])
    (.Identifier "int")

/-- `[proc,tfact](int $n, int $acc)(int) if ($n <= 1) { return($acc); }
return(~tfact(calc($n - 1), calc($n * $acc)));` — the tail-recursion-
with-accumulator exemplar. -/
def tfactAst : AstKind :=
  .Trigger (.Identifier "tfact") (.Proc "proc")
    [.Identifier "int", .LocalVar "n", .Identifier "int", .LocalVar "acc"]
    (.Block
      [.If (.BinaryExpression (.LocalVar "n") (.NumericLiteral 1) "<=")
         (.Block []) (.Return (.LocalVar "acc")),
       .Return (.ScriptCall (.Identifier "tfact")
         [.FunctionCall "calc"
            [.BinaryExpression (.LocalVar "n") (.NumericLiteral 1) "-"],
          .FunctionCall "calc"
            [.BinaryExpression (.LocalVar "n") (.LocalVar "acc") "*"]])])
    (.Identifier "int")

/-- `[proc,fib](int $n)(int) if ($n = 0) { return(0); }
if ($n <= 2) { return(1); }
return(calc(~fib(calc($n - 1)) + ~fib(calc($n - 2))));` — the
double-recursion exemplar. -/
def fibAst : AstKind :=
  .Trigger (.Identifier "fib") (.Proc "proc")
    [.Identifier "int", .LocalVar "n"]
    (.Block
      [.If (.BinaryExpression (.LocalVar "n") (.NumericLiteral 0) "=")
         (.Block []) (.Return (.NumericLiteral 0)),
       .If (.BinaryExpression (.LocalVar "n") (.NumericLiteral 2) "<=")
         (.Block []) (.Return (.NumericLiteral 1)),
       .Return (.FunctionCall "calc"
         [.BinaryExpression
            (.ScriptCall (.Identifier "fib")
              [.FunctionCall "calc"
                [.BinaryExpression (.LocalVar "n") (.NumericLiteral 1) "-"]])
            (.ScriptCall (.Identifier "fib")
              [.FunctionCall "calc"
                [.BinaryExpression (.LocalVar "n") (.NumericLiteral 2) "-"]])
            "+"])])
    (.Identifier "int")

/-- `[proc,loop]()(int) while (1 = 1) { }` — the runaway script of the
budget property. -/
def loopAst : AstKind :=
  .Trigger (.Identifier "loop") (.Proc "proc") []
    (.Block
      [.While (.BinaryExpression (.NumericLiteral 1) (.NumericLiteral 1) "=")
         (.Block [])])
    (.Identifier "int")

/-- Extract the bytecode of a successful compilation (every use below
is accompanied by a proof that the compilation did succeed). -/
def bcOf (e : Except String ByteCodeL) : ByteCodeL :=
  match e with
  | .ok bc => bc
  | .error _ => ⟨"", []⟩

def factBC : ByteCodeL := bcOf (compileScript "fact" factAst)
def tfactBC : ByteCodeL := bcOf (compileScript "tfact" tfactAst)
def fibBC : ByteCodeL := bcOf (compileScript "fib" fibAst)
def loopBC : ByteCodeL := bcOf (compileScript "loop" loopAst)

/-- A fresh VM with the three rewritten exemplars registered. -/
def vmEx : VMState :=
  registerScript (registerScript (registerScript vmNew factBC) tfactBC) fibBC

/-- The evaluator registries holding the *original* recursive ASTs. -/
def scFact : List (String × AstKind) := [("fact", factAst)]
def scTfact : List (String × AstKind) := [("tfact", tfactAst)]
def scFib : List (String × AstKind) := [("fib", fibAst)]

/-- Reference factorial, as an integer. -/
def factRef : Nat → Int
  | 0 => 1
  | n + 1 => (n + 1) * factRef n

/-- Reference Fibonacci, as an integer. -/
def fibRef : Nat → Int
  | 0 => 0
  | 1 => 1
  | n + 2 => fibRef n + fibRef (n + 1)

/-! ## Further concrete modules used by the theorems -/

/-- `[proc,divz]()(int) return(calc(10 / 0));` -/
def divAst : AstKind :=
  .Trigger (.Identifier "divz") (.Proc "proc") []
    (.Block [.Return (.FunctionCall "calc"
      [.BinaryExpression (.NumericLiteral 10) (.NumericLiteral 0) "/"])])
    (.Identifier "int")

def divBC : ByteCodeL := bcOf (compileScript "divz" divAst)

/-- `return(calc(10 / 2));` wrapped the same way. -/
def divTwoAst : AstKind :=
  .Trigger (.Identifier "divtwo") (.Proc "proc") []
    (.Block [.Return (.FunctionCall "calc"
      [.BinaryExpression (.NumericLiteral 10) (.NumericLiteral 2) "/"])])
    (.Identifier "int")

def divTwoBC : ByteCodeL := bcOf (compileScript "divtwo" divTwoAst)

def vmDiv : VMState := registerScript (registerScript vmNew divBC) divTwoBC

/-- An `If` statement whose else branch ends in a `Return` (the block
`{ return(9); return(7); }` parses to exactly this shape: the first
`return` is lifted into the `returnStatement` slot, the second stays in
the else block).  Compiling it patches the skip-else `Jump` to one past
the end of the script. -/
def ifElseReturnAst : AstKind :=
  .Block
    [.If (.NumericLiteral 1)
       (.Block [.Return (.NumericLiteral 7)])
       (.Return (.NumericLiteral 9))]

def ifElseReturnBC : ByteCodeL := bcOf (compileScript "t" ifElseReturnAst)

/-- The targets of one instruction: the fields the loader would have
to validate. -/
def instrTargets : Instr → List Nat
  | .Branch t => [t]
  | .BranchNot t => [t]
  | .BranchEquals t => [t]
  | .BranchLessThan t => [t]
  | .BranchGreaterThan t => [t]
  | .BranchLessThanOrEquals t => [t]
  | .BranchGreaterThanOrEquals t => [t]
  | .BranchNotEquals t => [t]
  | .Jump t => [t]
  | .Switch cases => cases.map Prod.snd
  | _ => []

/-- Every branch, jump and switch target of `l` is at most `n`. -/
def targetsBoundedBy (l : List Instr) (n : Nat) : Prop :=
  ∀ i ∈ l, ∀ t ∈ instrTargets i, t ≤ n

/-- A two-instruction script returning the constant 5. -/
def s5BC : ByteCodeL := ⟨"s5", [.PushConstantInt 5, .Return]⟩

/-- A script calling `s5` twice through `GosubWithParams` and adding
the results. -/
def callTwiceBC : ByteCodeL :=
  ⟨"m2", [.PushConstantInt 0, .GosubWithParams "s5",
          .PushConstantInt 0, .GosubWithParams "s5", .Add, .Return]⟩

def vmMemo : VMState := registerScript (registerScript vmNew s5BC) callTwiceBC

/-- A script whose checked `Multiply` overflows. -/
def mulOvfBC : ByteCodeL :=
  ⟨"bad", [.PushConstantInt 2000000000, .PushConstantInt 2,
           .Multiply, .Return]⟩

/-- A script whose checked `Add` overflows. -/
def addOvfBC : ByteCodeL :=
  ⟨"bad2", [.PushConstantInt 2147483647, .PushConstantInt 1,
            .Add, .Return]⟩

/-- A VM with non-trivial prior state, to observe whether `run_script`
restores it. -/
def vmDirty : VMState :=
  { registerScript (registerScript vmNew mulOvfBC) addOvfBC with
      ip := 7, stack := [42], vars := [("x", 5)],
      currentScript := some "outer" }

/-- `c` returns 7; `b` calls `c` through `GosubWithParams`; `m` calls
`b` the same way. -/
def nestedCBC : ByteCodeL := ⟨"c", [.PushConstantInt 7, .Return]⟩
def nestedBBC : ByteCodeL :=
  ⟨"b", [.PushConstantInt 0, .GosubWithParams "c", .Return]⟩
def nestedMBC : ByteCodeL :=
  ⟨"m", [.PushConstantInt 0, .GosubWithParams "b", .Return]⟩

def vmNested : VMState :=
  registerScript (registerScript (registerScript vmNew nestedCBC)
    nestedBBC) nestedMBC

/-- Scripts exercising the silent-zero behaviour of empty-stack pops
and missing locals. -/
def retOnlyBC : ByteCodeL := ⟨"r", [.Return]⟩
def addEmptyBC : ByteCodeL := ⟨"ae", [.Add, .Return]⟩
def subOneBC : ByteCodeL := ⟨"so", [.PushConstantInt 5, .Subtract, .Return]⟩
def pushMissingBC : ByteCodeL := ⟨"pm", [.PushIntLocal "zzz", .Return]⟩
def popEmptyBC : ByteCodeL :=
  ⟨"pe", [.PopIntLocal "x", .PushIntLocal "x", .Return]⟩
def branchEmptyBC : ByteCodeL :=
  ⟨"be", [.BranchEquals 2, .Return, .PushConstantInt 9, .Return]⟩
def gosubEmptyBC : ByteCodeL := ⟨"ge", [.GosubWithParams "c", .Return]⟩

def vmZero : VMState :=
  registerScript (registerScript (registerScript (registerScript
    (registerScript (registerScript (registerScript (registerScript vmNew
      nestedCBC) retOnlyBC) addEmptyBC) subOneBC) pushMissingBC)
      popEmptyBC) branchEmptyBC) gosubEmptyBC

/-- The VM states visited at the top of the main loop while the
compiled `while (1 = 1) { }` script runs: the cycle of `(ip, stack)`
pairs of its six live instructions.  The body of `loopBC` is
`[Push 1, Push 1, BranchEquals 5, Push 0, Jump 6, Push 1,
BranchNot 8, Jump 0, Return]`. -/
def loopLive (vm : VMState) : Prop :=
  (vm.ip = 0 ∧ vm.stack = []) ∨ (vm.ip = 1 ∧ vm.stack = [1]) ∨
  (vm.ip = 2 ∧ vm.stack = [1, 1]) ∨ (vm.ip = 5 ∧ vm.stack = []) ∨
  (vm.ip = 6 ∧ vm.stack = [1]) ∨ (vm.ip = 7 ∧ vm.stack = [])

/-- The VM state carried by a loop outcome, whichever constructor. -/
def loopResVM : LoopRes → VMState
  | .normal _ vm => vm
  | .early _ vm => vm

/-- The instruction list of `loopBC`, written out (the equation with
`loopBC` is proved below). -/
def loopInstrs : List Instr :=
  [.PushConstantInt 1, .PushConstantInt 1, .BranchEquals 5, .PushConstantInt 0,
   .Jump 6, .PushConstantInt 1, .BranchNot 8, .Jump 0, .Return]

def vmLoop : VMState := registerScript vmNew loopBC

/-- `compile_node` only ever appends instructions or patches earlier
placeholders, so the bytecode length never shrinks, and every target it
writes is bounded by the length of the list it is written into. -/
def grows (bc bc' : List Instr) : Prop :=
  bc.length ≤ bc'.length ∧
  (targetsBoundedBy bc bc.length → targetsBoundedBy bc' bc'.length)

/-! # Claim theorems -/

/-- C2, counterexample: compiling a `BinaryExpression` with operator
`+` that is not the child of a `calc` call *succeeds*, producing
`Add` bytecode — no compile error is raised, contradicting the claim
that any of `+ - * /` at this position causes one. -/
theorem c2_counterexample :
    compileScript "t2"
      (.Return (.BinaryExpression (.NumericLiteral 1) (.NumericLiteral 2) "+")) =
      .ok ⟨"t2", [.PushConstantInt 1, .PushConstantInt 2, .Add, .Return]⟩ := by
  decide

/-- C2, amended: outside `calc`, the compiler lowers `+`, `-` and `*`
to `Add`, `Subtract` and `Multiply` without error; only `/` (or an
unrecognized operator) raises the `Unsupported operator` compile
error. -/
theorem c2_arithmetic_gating (fuel : Nat) (l r : AstKind)
    (bc bc1 bc2 : List Instr)
    (hl : compileNodeF fuel l bc = .ok bc1)
    (hr : compileNodeF fuel r bc1 = .ok bc2) :
    compileNodeF (fuel + 1) (.BinaryExpression l r "+") bc =
      .ok (bc2 ++ [.Add]) ∧
    compileNodeF (fuel + 1) (.BinaryExpression l r "-") bc =
      .ok (bc2 ++ [.Subtract]) ∧
    compileNodeF (fuel + 1) (.BinaryExpression l r "*") bc =
      .ok (bc2 ++ [.Multiply]) ∧
    compileNodeF (fuel + 1) (.BinaryExpression l r "/") bc =
      .error "Unsupported operator: /" := by
  refine ⟨?_, ?_, ?_, ?_⟩ <;>
    simp [compileNodeF, hl, hr, bind, Except.bind]

theorem c2_arithmetic_gating_witness :
    compileNodeF 2
      (.BinaryExpression (.NumericLiteral 1) (.NumericLiteral 2) "/") [] =
      .error "Unsupported operator: /" :=
  (c2_arithmetic_gating 1 (.NumericLiteral 1) (.NumericLiteral 2) []
    [.PushConstantInt 1] [.PushConstantInt 1, .PushConstantInt 2]
    (by decide) (by decide)).2.2.2

/-- C5: the `Divide` instruction is *ignored* by the VM (it falls into
the wildcard arm of `run_script`): `calc(10 / 0)` compiles to
`[Push 10, Push 0, Divide, Return]` and returns `Ok 0` — no
division-by-zero error and no quotient — and `calc(10 / 2)` returns
`Ok 2` (the `Return` pops the untouched divisor) instead of 5. -/
theorem c5_divide_is_noop :
    divBC.instructions =
      [.PushConstantInt 10, .PushConstantInt 0, .Divide, .Return] ∧
    (runScript vmDiv "divz" []).1 = .ok 0 ∧
    (runScript vmDiv "divtwo" []).1 = .ok 2 := by
  decide

/-- C3, counterexample: `run_script` does *not* insert into the memo
cache when its own `Return` executes: after running the two-instruction
script `s5` the cache is still empty, and a second identical call
re-enters the body (the instruction counter rises from 2 to 4). -/
theorem c3_counterexample :
    (runScript vmMemo "s5" []).1 = .ok 5 ∧
    (runScript vmMemo "s5" []).2.memoCache = [] ∧
    (runScript vmMemo "s5" []).2.instructionCount = 2 ∧
    (runScript (runScript vmMemo "s5" []).2 "s5" []).2.instructionCount = 4 := by
  decide

/-- C4: the checked `Multiply` overflow arm returns from `run_script`
*without* restoring the snapshot: the dirty VM's stack `[42]`, ip `7`
and current script `outer` are all lost.  The sibling `Add` overflow
arm breaks out of the loop instead and does restore ip, current script
and stack (the variables are restored only to the argument map, since
the source snapshots them after clobbering them). -/
theorem c4_multiply_overflow_skips_restore :
    (runScript vmDirty "bad" []).1 = .error .overflow ∧
    (runScript vmDirty "bad" []).2.stack = [] ∧
    (runScript vmDirty "bad" []).2.ip = 3 ∧
    (runScript vmDirty "bad" []).2.currentScript = some "bad" ∧
    (runScript vmDirty "bad" []).2.vars = [] ∧
    (runScript vmDirty "bad2" []).1 = .error .overflow ∧
    (runScript vmDirty "bad2" []).2.stack = [42] ∧
    (runScript vmDirty "bad2" []).2.ip = 7 ∧
    (runScript vmDirty "bad2" []).2.currentScript = some "outer" ∧
    (runScript vmDirty "bad2" []).2.vars = [] := by
  decide

/-- C7: a `GosubWithParams` executed as the *top-level* current
instruction runs its callee (`b` returns `c`'s 7), but a
`GosubWithParams` encountered inside a callee is dispatched through
`execute_instruction`, whose wildcard arm ignores it — so `m` (which
calls `b`, which calls `c`) returns 0: `b`'s inner call to `c` never
runs, the argument count is not even popped, and only `b`'s (wrong)
result is cached. -/
theorem c7_nested_gosub_ignored :
    (runScript vmNested "b" []).1 = .ok 7 ∧
    (runScript vmNested "m" []).1 = .ok 0 ∧
    (runScript vmNested "m" []).2.memoCache = [(("b", []), 0)] := by
  decide

/-- C9, counterexample: compiling a `Block` holding an `If` whose
then-slot returns 9 and whose else branch ends in `return(7)` emits
seven instructions in which the skip-else `Jump` targets index 7 — one
past the end, not a valid index. -/
theorem c9_counterexample :
    ifElseReturnBC.instructions =
      [.PushConstantInt 1, .BranchNot 5, .PushConstantInt 9, .Return,
       .Jump 7, .PushConstantInt 7, .Return] ∧
    ifElseReturnBC.instructions.length = 7 ∧
    Instr.Jump 7 ∈ ifElseReturnBC.instructions := by
  decide

/-- C8, counterexample: in `if ($x = 3)` the backward scan from `=`
meets the `LocalVar` token emitted for `$` *before* the `If` token, so
the `=` lexes as `Equals`, not as `ComparisonOperator` as the claim
asserts. -/
theorem c8_counterexample :
    (tokenize "if ($x = 3)").map (List.map TokenL.kind) =
      .ok [.If, .LParen, .LocalVar, .Identifier, .Equals, .Number,
           .RParen, .EOF] ∧
    (tokenize "if ($x = 3)").map (List.map TokenL.kind) ≠
      .ok [.If, .LParen, .LocalVar, .Identifier, .ComparisonOperator,
           .Number, .RParen, .EOF] := by
  decide

/-- C8, amended: the backward scan emits `ComparisonOperator` only
when an `If` or `While` token is met before any `Def` or `LocalVar`
token: assignments lex as `Equals`; `if ($x = 3)` *also* lexes as
`Equals` (the `$` intervenes); comparisons against conditions without
a `$`-variable on the left, like `if (1 = 3)` and `while (1 = 1)`,
lex as `ComparisonOperator`. -/
theorem c8_equals_disambiguation :
    (tokenize "$x = calc($x + 1);").map (List.map TokenL.kind) =
      .ok [.LocalVar, .Identifier, .Equals, .Command, .LParen, .LocalVar,
           .Identifier, .BinaryOperator, .Number, .RParen, .Semicolon,
           .EOF] ∧
    (tokenize "if ($x = 3)").map (List.map TokenL.kind) =
      .ok [.If, .LParen, .LocalVar, .Identifier, .Equals, .Number,
           .RParen, .EOF] ∧
    (tokenize "if (1 = 3)").map (List.map TokenL.kind) =
      .ok [.If, .LParen, .Number, .ComparisonOperator, .Number, .RParen,
           .EOF] ∧
    (tokenize "while (1 = 1) { }").map (List.map TokenL.kind) =
      .ok [.While, .LParen, .Number, .ComparisonOperator, .Number,
           .RParen, .LBrace, .RBrace, .EOF] ∧
    (tokenize "def_int $y = 4;").map (List.map TokenL.kind) =
      .ok [.Def, .LocalVar, .Identifier, .Equals, .Number, .Semicolon,
           .EOF] := by
  decide

/-- C3, amended: the memo cache is populated only by completed
`GosubWithParams` calls, never by `run_script`'s own `Return`: a
top-level run of `s5` leaves the cache exactly as it was (first
conjunct, for any VM with `s5` registered, the key uncached and budget
left), so a second identical top-level call re-enters the body; but a
script that gosubs `s5` twice caches `(s5, []) ↦ 5` at the first call
and answers the second from the cache — only 8 instructions execute
(6 of the caller, 2 of the single entry into `s5`). -/
theorem c3_memo_only_gosub :
    (∀ (vm : VMState) (args : List Int),
       scriptLookup vm.scripts "s5" = some s5BC →
       memoLookup vm.memoCache ("s5", args) = none →
       vm.instructionCount + 2 ≤ vm.maxInstructions →
       (runScript vm "s5" args).1 = .ok 5 ∧
       (runScript vm "s5" args).2.memoCache = vm.memoCache) ∧
    ((runScript vmMemo "m2" []).1 = .ok 10 ∧
     (runScript vmMemo "m2" []).2.memoCache = [(("s5", []), 5)] ∧
     (runScript vmMemo "m2" []).2.instructionCount = 8) := by
  constructor
  · intro vm args h1 h2 h3
    obtain ⟨m, hm⟩ : ∃ m, vm.maxInstructions = vm.instructionCount + (m + 2) :=
      ⟨vm.maxInstructions - vm.instructionCount - 2, by omega⟩
    simp only [runScript]
    simp only [h2, h1, hm]
    simp [mainLoop, mainStep, s5BC, popInt,
      show ¬(vm.instructionCount + (m + 2) ≤ vm.instructionCount) by omega,
      show ¬(vm.instructionCount + (m + 2) ≤ vm.instructionCount + 1) by omega]
  · decide

theorem c3_memo_only_gosub_witness :
    (runScript vmMemo "s5" []).1 = .ok 5 ∧
    (runScript vmMemo "s5" []).2.memoCache = vmMemo.memoCache :=
  c3_memo_only_gosub.1 vmMemo [] (by decide) (by decide) (by decide)

/-- C10: every stack pop uses `unwrap_or(0)` and every local read uses
`unwrap_or(0)`: a `Return` on an empty operand stack yields `Ok 0`
(first conjunct, for any registered one-instruction script), `Add` of
nothing yields 0, `Subtract` with one operand treats the missing one
as 0 (`0 - 5 = -5`), reading an unset local pushes 0, `PopIntLocal` of
an empty stack stores 0, a comparison branch on an empty stack
compares `0 = 0` and jumps, and a `GosubWithParams` on an empty stack
takes the argument count to be 0 and calls the script anyway. -/
theorem c10_silent_zero :
    (∀ (vm : VMState) (name : String) (args : List Int),
       scriptLookup vm.scripts name = some ⟨name, [.Return]⟩ →
       memoLookup vm.memoCache (name, args) = none →
       vm.instructionCount < vm.maxInstructions →
       (runScript vm name args).1 = .ok 0) ∧
    ((runScript vmZero "ae" []).1 = .ok 0 ∧
     (runScript vmZero "so" []).1 = .ok (-5) ∧
     (runScript vmZero "pm" []).1 = .ok 0 ∧
     (runScript vmZero "pe" []).1 = .ok 0 ∧
     (runScript vmZero "be" []).1 = .ok 9 ∧
     (runScript vmZero "ge" []).1 = .ok 7) := by
  constructor
  · intro vm name args h1 h2 h3
    obtain ⟨m, hm⟩ : ∃ m, vm.maxInstructions = vm.instructionCount + (m + 1) :=
      ⟨vm.maxInstructions - vm.instructionCount - 1, by omega⟩
    simp only [runScript]
    simp only [h2, h1, hm]
    simp [mainLoop, mainStep, popInt,
      show ¬(vm.instructionCount + (m + 1) ≤ vm.instructionCount) by omega]
  · decide

theorem c10_silent_zero_witness :
    (runScript vmZero "r" []).1 = .ok 0 :=
  c10_silent_zero.1 vmZero "r" [] (by decide) (by decide) (by decide)

theorem executeInstruction_count (vm : VMState) (i : Instr) :
    (executeInstruction vm i).2.instructionCount = vm.instructionCount ∧
    (executeInstruction vm i).2.maxInstructions = vm.maxInstructions := by
  cases i <;> simp [executeInstruction, popInt] <;> (split <;> simp)

theorem gosubLoop_count (instrs : List Instr) :
    ∀ (fuel : Nat) (vm : VMState),
      ((gosubLoop instrs fuel vm).2.instructionCount ≤
        max vm.instructionCount vm.maxInstructions) ∧
      (gosubLoop instrs fuel vm).2.maxInstructions = vm.maxInstructions := by
  intro fuel
  induction fuel with
  | zero => intro vm; simp [gosubLoop]
  | succ f ih =>
    intro vm
    rw [gosubLoop]
    split
    · rename_i hip
      split
      · simp
      · rename_i hbud
        dsimp only []
        split
        · simp [popInt]; omega
        · rcases hex : executeInstruction
              { vm with instructionCount := vm.instructionCount + 1,
                        ip := vm.ip + 1 } (instrs.get ⟨vm.ip, hip⟩)
              with ⟨er, vm2⟩
          have hc := executeInstruction_count
            { vm with instructionCount := vm.instructionCount + 1,
                      ip := vm.ip + 1 } (instrs.get ⟨vm.ip, hip⟩)
          rw [hex] at hc
          simp at hc
          cases er with
          | ok u =>
            have hih := ih vm2
            refine ⟨?_, ?_⟩
            · show (gosubLoop instrs f vm2).2.instructionCount ≤
                max vm.instructionCount vm.maxInstructions
              have h9 := hih.1
              omega
            · show (gosubLoop instrs f vm2).2.maxInstructions =
                vm.maxInstructions
              have h9 := hih.2
              omega
          | error e =>
            refine ⟨?_, ?_⟩
            · show vm2.instructionCount ≤
                max vm.instructionCount vm.maxInstructions
              omega
            · show vm2.maxInstructions = vm.maxInstructions
              omega
    · simp

theorem mainStep_count (vm : VMState) (ins : Instr) (fuel : Nat)
    (out : StepOut) (h : mainStep vm ins fuel = out) :
    match out with
    | .cont vm2 =>
      vm2.instructionCount ≤ max vm.instructionCount vm.maxInstructions ∧
      vm2.maxInstructions = vm.maxInstructions
    | .brk _ vm2 =>
      vm2.instructionCount ≤ max vm.instructionCount vm.maxInstructions ∧
      vm2.maxInstructions = vm.maxInstructions
    | .ret _ vm2 =>
      vm2.instructionCount ≤ max vm.instructionCount vm.maxInstructions ∧
      vm2.maxInstructions = vm.maxInstructions := by
  cases out with
  | cont vm2 =>
    dsimp only []
    cases ins
    case GosubWithParams name =>
      dsimp only [mainStep] at h
      split at h
      · cases h; exact ⟨Nat.le_max_left _ _, rfl⟩
      · split at h
        · cases h
        · split at h
          · cases h
            exact ⟨le_trans (gosubLoop_count _ fuel _).1 (by simp),
                   (gosubLoop_count _ fuel _).2⟩
          · cases h
    all_goals
      (dsimp only [mainStep] at h
       first
       | (split at h <;> (cases h <;> exact ⟨Nat.le_max_left _ _, rfl⟩))
       | (cases h <;> exact ⟨Nat.le_max_left _ _, rfl⟩))
  | brk r vm2 =>
    dsimp only []
    cases ins
    case GosubWithParams name =>
      dsimp only [mainStep] at h
      split at h
      · cases h
      · split at h
        · cases h; exact ⟨Nat.le_max_left _ _, rfl⟩
        · split at h
          · cases h
          · cases h
            exact ⟨le_trans (gosubLoop_count _ fuel _).1 (by simp),
                   (gosubLoop_count _ fuel _).2⟩
    all_goals
      (dsimp only [mainStep] at h
       first
       | (split at h <;> (cases h <;> exact ⟨Nat.le_max_left _ _, rfl⟩))
       | (cases h <;> exact ⟨Nat.le_max_left _ _, rfl⟩))
  | ret r vm2 =>
    dsimp only []
    cases ins
    case GosubWithParams name =>
      dsimp only [mainStep] at h
      split at h
      · cases h
      · split at h
        · cases h
        · split at h
          · cases h
          · cases h
    all_goals
      (dsimp only [mainStep] at h
       first
       | (split at h <;> (cases h <;> exact ⟨Nat.le_max_left _ _, rfl⟩))
       | (cases h <;> exact ⟨Nat.le_max_left _ _, rfl⟩))

theorem mainLoop_count (instrs : List Instr) :
    ∀ (fuel : Nat) (vm : VMState),
      (loopResVM (mainLoop instrs fuel vm)).instructionCount ≤
        max vm.instructionCount vm.maxInstructions ∧
      (loopResVM (mainLoop instrs fuel vm)).maxInstructions = vm.maxInstructions := by
  intro fuel
  induction fuel with
  | zero =>
    intro vm
    rw [mainLoop]
    exact ⟨Nat.le_max_left _ _, rfl⟩
  | succ f ih =>
    intro vm
    rw [mainLoop]
    split
    · split
      · exact ⟨Nat.le_max_left _ _, rfl⟩
      · rename_i hip hbud
        dsimp only []
        split
        · rename_i vm2 hms
          have h2 : vm2.instructionCount ≤
              max (vm.instructionCount + 1) vm.maxInstructions ∧
              vm2.maxInstructions = vm.maxInstructions := mainStep_count _ _ _ _ hms
          have h1 := ih vm2
          constructor <;> omega
        · rename_i r vm2 hms
          have h2 : vm2.instructionCount ≤
              max (vm.instructionCount + 1) vm.maxInstructions ∧
              vm2.maxInstructions = vm.maxInstructions := mainStep_count _ _ _ _ hms
          simp only [loopResVM]
          constructor <;> omega
        · rename_i r vm2 hms
          have h2 : vm2.instructionCount ≤
              max (vm.instructionCount + 1) vm.maxInstructions ∧
              vm2.maxInstructions = vm.maxInstructions := mainStep_count _ _ _ _ hms
          simp only [loopResVM]
          constructor <;> omega
    · exact ⟨Nat.le_max_left _ _, rfl⟩

theorem runScript_count (vm : VMState) (name : String) (args : List Int) :
    (runScript vm name args).2.instructionCount ≤
      max vm.instructionCount vm.maxInstructions := by
  rw [runScript]
  split
  · exact Nat.le_max_left _ _
  · split
    · exact Nat.le_max_left _ _
    · rename_i bc hsc
      dsimp only []
      split
      · rename_i r vmf hml
        have h1 := mainLoop_count bc.instructions (vm.maxInstructions + 1)
          { ip := 0, stack := [], vars := setupArgs args, scripts := vm.scripts,
            currentScript := some name, instructionCount := vm.instructionCount,
            maxInstructions := vm.maxInstructions, memoCache := vm.memoCache }
        rw [hml] at h1
        simp only [loopResVM] at h1
        simpa using h1.1
      · rename_i r vmf hml
        have h1 := mainLoop_count bc.instructions (vm.maxInstructions + 1)
          { ip := 0, stack := [], vars := setupArgs args, scripts := vm.scripts,
            currentScript := some name, instructionCount := vm.instructionCount,
            maxInstructions := vm.maxInstructions, memoCache := vm.memoCache }
        rw [hml] at h1
        simp only [loopResVM] at h1
        simpa using h1.1

theorem loopBC_instructions : loopBC.instructions = loopInstrs := by decide

theorem loopBudgetAux (fuel : Nat) :
    ∀ vm : VMState, loopLive vm →
      ∃ vm2, mainLoop loopInstrs fuel vm =
        .normal (.error .budgetExceeded) vm2 := by
  induction fuel with
  | zero =>
    intro vm _
    exact ⟨vm, by rw [mainLoop]⟩
  | succ f ih =>
    intro vm hl
    rcases hl with ⟨h0, hs⟩ | ⟨h0, hs⟩ | ⟨h0, hs⟩ | ⟨h0, hs⟩ | ⟨h0, hs⟩ | ⟨h0, hs⟩ <;>
      (rw [mainLoop]
       rw [dif_pos (show vm.ip < loopInstrs.length by rw [h0]; decide)]
       rcases le_or_lt vm.maxInstructions vm.instructionCount with hb | hb
       · rw [if_pos hb]
         exact ⟨vm, rfl⟩
       · rw [if_neg (by omega)]
         simp only [h0, hs, loopInstrs, List.get, mainStep, popInt]
         exact ih _ (by simp [loopLive, h0]))

/-- C6: `run_script` always terminates having executed at most
`max_instructions` further instructions (the final instruction count
exceeds the initial one by at most the budget), the default budget is
10,000,000, and the script compiled from `while (1 = 1) { }` in
particular returns the budget-exceeded error on any VM that has it
registered and no cached result for it. -/
theorem c6_budget_termination :
    vmNew.maxInstructions = 10000000 ∧
    (∀ (vm : VMState) (name : String) (args : List Int),
      (runScript vm name args).2.instructionCount - vm.instructionCount ≤
        vm.maxInstructions) ∧
    (∀ (vm : VMState) (args : List Int),
      scriptLookup vm.scripts "loop" = some loopBC →
      memoLookup vm.memoCache ("loop", args) = none →
      (runScript vm "loop" args).1 = .error .budgetExceeded) := by
  refine ⟨rfl, ?_, ?_⟩
  · intro vm name args
    have h := runScript_count vm name args
    omega
  · intro vm args hs hm
    rw [runScript]
    dsimp only []
    rw [hm]
    dsimp only []
    rw [hs]
    dsimp only []
    obtain ⟨vm2, h2⟩ := loopBudgetAux (vm.maxInstructions + 1)
      { ip := 0, stack := [], vars := setupArgs args, scripts := vm.scripts,
        currentScript := some "loop", instructionCount := vm.instructionCount,
        maxInstructions := vm.maxInstructions, memoCache := vm.memoCache }
      (Or.inl ⟨rfl, rfl⟩)
    rw [loopBC_instructions, h2]

theorem c6_budget_termination_witness :
    (scriptLookup vmLoop.scripts "loop" = some loopBC ∧
     memoLookup vmLoop.memoCache ("loop", []) = none) ∧
    (runScript vmLoop "loop" []).1 = .error .budgetExceeded :=
  ⟨⟨by decide, by decide⟩,
   c6_budget_termination.2.2 vmLoop [] (by decide) (by decide)⟩

theorem tb_mono {l : List Instr} {n m : Nat}
    (h : targetsBoundedBy l n) (hnm : n ≤ m) : targetsBoundedBy l m :=
  fun i hi t ht => le_trans (h i hi t ht) hnm

theorem tb_append {l1 l2 : List Instr} {n : Nat}
    (h1 : targetsBoundedBy l1 n) (h2 : targetsBoundedBy l2 n) :
    targetsBoundedBy (l1 ++ l2) n := by
  intro i hi t ht
  rcases List.mem_append.mp hi with hi' | hi'
  · exact h1 i hi' t ht
  · exact h2 i hi' t ht

theorem tb_set {l : List Instr} {n k : Nat} {i : Instr}
    (h : targetsBoundedBy l n) (hi : ∀ t ∈ instrTargets i, t ≤ n) :
    targetsBoundedBy (l.set k i) n := by
  intro j hj t ht
  rcases List.mem_or_eq_of_mem_set hj with hj' | rfl
  · exact h j hj' t ht
  · exact hi t ht

theorem tb_nil {n : Nat} : targetsBoundedBy [] n := by
  intro i hi
  cases hi

theorem tb_single {i : Instr} {n : Nat} (h : ∀ t ∈ instrTargets i, t ≤ n) :
    targetsBoundedBy [i] n := by
  intro j hj t ht
  rcases List.mem_singleton.mp hj with rfl
  exact h t ht

theorem grows_refl (bc : List Instr) : grows bc bc := ⟨le_refl _, id⟩

theorem grows_trans {a b c : List Instr} (h1 : grows a b) (h2 : grows b c) :
    grows a c :=
  ⟨le_trans h1.1 h2.1, fun htb => h2.2 (h1.2 htb)⟩

theorem grows_append {bc1 : List Instr} (tail : List Instr)
    (ht : ∀ i ∈ tail, ∀ t ∈ instrTargets i, t ≤ bc1.length + tail.length) :
    grows bc1 (bc1 ++ tail) := by
  constructor
  · simp
  · intro htb
    rw [List.length_append]
    refine tb_append (tb_mono htb (by omega)) ?_
    intro i hi t hmem
    exact ht i hi t hmem

theorem grows_set {l : List Instr} {k : Nat} {i : Instr}
    (hi : ∀ t ∈ instrTargets i, t ≤ l.length) : grows l (l.set k i) := by
  constructor
  · simp
  · intro htb
    rw [List.length_set]
    exact tb_set htb hi

theorem compileNodeF_grows : ∀ fuel : Nat,
    (∀ (ast : AstKind) (bc bc' : List Instr),
      compileNodeF fuel ast bc = .ok bc' → grows bc bc') ∧
    (∀ (asts : List AstKind) (bc bc' : List Instr),
      compileNodeListF fuel asts bc = .ok bc' → grows bc bc') := by
  intro fuel
  induction fuel with
  | zero =>
    constructor
    · intro ast bc bc' h
      rw [compileNodeF] at h
      exact Except.noConfusion h
    · intro asts bc bc' h
      rw [compileNodeListF] at h
      exact Except.noConfusion h
  | succ f ih =>
    obtain ⟨ihN, ihL⟩ := ih
    constructor
    · intro ast bc bc' h
      cases ast with
      | NumericLiteral n =>
        simp only [compileNodeF] at h
        cases h
        exact grows_append _ (by intro i hi t ht <;> fin_cases hi <;>
          simp [instrTargets] at ht <;> (try simp))
      | StringLiteral s =>
        simp only [compileNodeF] at h
        cases h
        exact grows_append _ (by intro i hi t ht <;> fin_cases hi <;>
          simp [instrTargets] at ht <;> (try simp))
      | LocalVar name =>
        simp only [compileNodeF] at h
        cases h
        exact grows_append _ (by intro i hi t ht <;> fin_cases hi <;>
          simp [instrTargets] at ht <;> (try simp))
      | Identifier s =>
        simp only [compileNodeF] at h
        cases h
        exact grows_refl _
      | Proc s =>
        simp only [compileNodeF] at h
        cases h
        exact grows_refl _
      | ReturnType =>
        simp only [compileNodeF] at h
        cases h
        exact grows_refl _
      | Trigger name kind args body returnType =>
        simp only [compileNodeF] at h
        cases h
        exact grows_refl _
      | BinaryExpression lhs rhs operator =>
        simp only [compileNodeF, bind, Except.bind, pure, Except.pure] at h
        split at h
        · exact Except.noConfusion h
        · rename_i bc1 h1
          split at h
          · exact Except.noConfusion h
          · rename_i bc2 h2
            have H1 := ihN lhs bc bc1 h1
            have H2 := ihN rhs bc1 bc2 h2
            split at h <;> try exact Except.noConfusion h
            all_goals cases h
            all_goals refine grows_trans H1 (grows_trans H2 (grows_append _ ?_))
            all_goals intro i hi t ht <;> fin_cases hi <;>
              simp [instrTargets] at ht <;> (try simp) <;> omega
      | Assignment target value =>
        simp only [compileNodeF, bind, Except.bind, pure, Except.pure] at h
        split at h
        · exact Except.noConfusion h
        · rename_i bc1 h1
          have H1 := ihN value bc bc1 h1
          split at h
          · rename_i name
            cases h
            refine grows_trans H1 (grows_append _ ?_)
            intro i hi t ht <;> fin_cases hi <;> simp [instrTargets] at ht <;> (try simp)
          · cases h
            exact H1
      | Define name varType value =>
        simp only [compileNodeF, bind, Except.bind, pure, Except.pure] at h
        split at h
        · exact Except.noConfusion h
        · rename_i bc1 h1
          cases h
          refine grows_trans (ihN value bc bc1 h1) (grows_append _ ?_)
          intro i hi t ht <;> fin_cases hi <;> simp [instrTargets] at ht <;> (try simp)
      | Return e =>
        simp only [compileNodeF, bind, Except.bind, pure, Except.pure] at h
        split at h
        · exact Except.noConfusion h
        · rename_i bc1 h1
          cases h
          refine grows_trans (ihN e bc bc1 h1) (grows_append _ ?_)
          intro i hi t ht <;> fin_cases hi <;> simp [instrTargets] at ht <;> (try simp)
      | Block statements =>
        simp only [compileNodeF] at h
        exact ihL statements bc bc' h
      | If expression value returnStatement =>
        simp only [compileNodeF, bind, Except.bind, pure, Except.pure] at h
        split at h
        · exact Except.noConfusion h
        · rename_i bc1 h1
          have H1 := ihN expression bc bc1 h1
          have G2 : grows bc1 (bc1 ++ [Instr.BranchNot 0]) := by
            refine grows_append _ ?_
            intro i hi t ht <;> fin_cases hi <;> simp [instrTargets] at ht <;> (try simp) <;>
              omega
          split at h
          · rename_i expr
            split at h
            · exact Except.noConfusion h
            · rename_i t3 h3
              have H3 : grows (bc1 ++ [Instr.BranchNot 0]) (t3 ++ [Instr.Return]) := by
                refine grows_trans (ihN expr _ _ h3) (grows_append _ ?_)
                intro i hi t ht <;> fin_cases hi <;> simp [instrTargets] at ht <;> (try simp)
              split at h
              · exact Except.noConfusion h
              · rename_i bc6 h6
                cases h
                refine grows_trans H1 (grows_trans G2 (grows_trans H3 ?_))
                have G4 : grows (t3 ++ [Instr.Return])
                    ((t3 ++ [Instr.Return]) ++ [Instr.Jump 0]) := by
                  refine grows_append _ ?_
                  intro i hi t ht <;> fin_cases hi <;>
                    simp [instrTargets] at ht <;> (try simp) <;> omega
                have G5 : grows ((t3 ++ [Instr.Return]) ++ [Instr.Jump 0])
                    (((t3 ++ [Instr.Return]) ++ [Instr.Jump 0]).set
                      bc1.length
                      (Instr.BranchNot
                        ((t3 ++ [Instr.Return]) ++ [Instr.Jump 0]).length)) := by
                  refine grows_set ?_
                  intro t ht <;> simp [instrTargets] at ht <;> (try simp) <;> omega
                refine grows_trans G4 (grows_trans G5 ?_)
                refine grows_trans (ihN value _ _ h6) (grows_set ?_)
                intro t ht <;> simp [instrTargets] at ht <;> (try simp) <;> omega
          · rename_i hnotret
            split at h
            · exact Except.noConfusion h
            · rename_i bc6 h6
              cases h
              refine grows_trans H1 (grows_trans G2 ?_)
              have G4 : grows (bc1 ++ [Instr.BranchNot 0])
                  ((bc1 ++ [Instr.BranchNot 0]) ++ [Instr.Jump 0]) := by
                refine grows_append _ ?_
                intro i hi t ht <;> fin_cases hi <;>
                  simp [instrTargets] at ht <;> (try simp) <;> omega
              have G5 : grows ((bc1 ++ [Instr.BranchNot 0]) ++ [Instr.Jump 0])
                  (((bc1 ++ [Instr.BranchNot 0]) ++ [Instr.Jump 0]).set
                    bc1.length
                    (Instr.BranchNot
                      ((bc1 ++ [Instr.BranchNot 0]) ++ [Instr.Jump 0]).length)) := by
                refine grows_set ?_
                intro t ht <;> simp [instrTargets] at ht <;> (try simp) <;> omega
              refine grows_trans G4 (grows_trans G5 ?_)
              refine grows_trans (ihN value _ _ h6) (grows_set ?_)
              intro t ht <;> simp [instrTargets] at ht <;> (try simp) <;> omega
      | While condition body =>
        simp only [compileNodeF, bind, Except.bind, pure, Except.pure] at h
        split at h
        · exact Except.noConfusion h
        · rename_i bc1 h1
          split at h
          · exact Except.noConfusion h
          · rename_i bc3 h3
            cases h
            have H1 := ihN condition bc bc1 h1
            have G2 : grows bc1 (bc1 ++ [Instr.BranchNot 0]) := by
              refine grows_append _ ?_
              intro i hi t ht <;> fin_cases hi <;> simp [instrTargets] at ht <;> (try simp) <;>
                omega
            have H3 := ihN body (bc1 ++ [Instr.BranchNot 0]) bc3 h3
            have G4 : grows bc3 (bc3 ++ [Instr.Jump bc.length]) := by
              refine grows_append _ ?_
              have hle : bc.length ≤ bc3.length :=
                le_trans H1.1 (le_trans G2.1 H3.1)
              intro i hi t ht <;> fin_cases hi <;>
                simp [instrTargets] at ht <;> (try simp) <;> omega
            refine grows_trans H1 (grows_trans G2 (grows_trans H3
              (grows_trans G4 (grows_set ?_))))
            intro t ht <;> simp [instrTargets] at ht <;> (try simp) <;> omega
      | FunctionCall name arguments =>
        simp only [compileNodeF, bind, Except.bind, pure, Except.pure] at h
        split at h
        · -- name = "calc"
          split at h
          · rename_i lhs rhs operator rest
            split at h
            · exact Except.noConfusion h
            · rename_i bc1 h1
              split at h
              · exact Except.noConfusion h
              · rename_i bc2 h2
                have H1 := ihN lhs bc bc1 h1
                have H2 := ihN rhs bc1 bc2 h2
                split at h <;> try exact Except.noConfusion h
                all_goals cases h
                all_goals refine grows_trans H1 (grows_trans H2 (grows_append _ ?_))
                all_goals intro i hi t ht <;> fin_cases hi <;>
                  simp [instrTargets] at ht <;> (try simp)
          · rename_i arg rest hne
            exact ihN arg bc bc' h
          · cases h
            exact grows_refl _
        · split at h
          · -- name = "abs"
            split at h
            · rename_i arg rest
              split at h
              · exact Except.noConfusion h
              · rename_i bc1 h1
                cases h
                refine grows_trans (ihN arg bc bc1 h1) (grows_append _ ?_)
                intro i hi t ht <;> fin_cases hi <;> simp [instrTargets] at ht <;> (try simp)
            · cases h
              exact grows_refl _
          · exact Except.noConfusion h
      | ScriptCall script arguments =>
        simp only [compileNodeF, bind, Except.bind, pure, Except.pure] at h
        split at h
        · exact Except.noConfusion h
        · rename_i bc1 h1
          have H1 := ihL arguments bc bc1 h1
          split at h <;> try exact Except.noConfusion h
          rename_i scriptName
          cases h
          have G2 : grows bc1 (bc1 ++ [Instr.PushConstantInt arguments.length]) := by
            refine grows_append _ ?_
            intro i hi t ht <;> fin_cases hi <;> simp [instrTargets] at ht <;> (try simp)
          refine grows_trans H1 (grows_trans G2 (grows_append _ ?_))
          intro i hi t ht <;> fin_cases hi <;> simp [instrTargets] at ht <;> (try simp)
    · intro asts bc bc' h
      cases asts with
      | nil =>
        simp only [compileNodeListF] at h
        cases h
        exact grows_refl _
      | cons a rest =>
        simp only [compileNodeListF, bind, Except.bind, pure, Except.pure] at h
        split at h
        · exact Except.noConfusion h
        · rename_i bc1 h1
          exact grows_trans (ihN a bc bc1 h1) (ihL rest bc1 bc' h)

theorem prologue_no_targets (l : List (Nat × String)) (acc : List Instr)
    (hacc : ∀ i ∈ acc, instrTargets i = []) :
    ∀ i ∈ l.foldl
      (fun acc p => acc ++ [Instr.PushIntLocal (argName p.1),
                            Instr.PopIntLocal p.2]) acc,
      instrTargets i = [] := by
  induction l generalizing acc with
  | nil => exact hacc
  | cons p rest ih =>
    intro i hi
    refine ih _ ?_ i hi
    intro j hj
    rcases List.mem_append.mp hj with hj' | hj'
    · exact hacc j hj'
    · fin_cases hj' <;> rfl

/-- C9, amended: for every AST accepted by `compile_script`, every
`Branch*`, `Jump` and `Switch` target in the emitted instruction list is
at most the *length* of that list.  (The bound is tight: targets equal
to the length — one past the last instruction — do occur, as the
counterexample shows, so the claim's "valid index" reading is what had
to be weakened.) -/
theorem c9_targets_bounded (name : String) (ast : AstKind) (bc : ByteCodeL)
    (h : compileScript name ast = .ok bc) :
    targetsBoundedBy bc.instructions bc.instructions.length := by
  have main : ∀ (body : AstKind) (start : List Instr)
      (hst : ∀ i ∈ start, instrTargets i = [])
      (instrs : List Instr), compileNode body start = .ok instrs →
      targetsBoundedBy
        (if instrs.getLast? = some Instr.Return then instrs
         else instrs ++ [Instr.Return])
        (if instrs.getLast? = some Instr.Return then instrs
         else instrs ++ [Instr.Return]).length := by
    intro body start hst instrs hin
    rw [compileNode] at hin
    have htb : targetsBoundedBy instrs instrs.length :=
      ((compileNodeF_grows (astSize body)).1 body start instrs hin).2
        (fun i hi t ht => by rw [hst i hi] at ht; cases ht)
    split
    · exact htb
    · refine tb_append (tb_mono htb (by simp)) ?_
      intro i hi t ht
      fin_cases hi
      simp [instrTargets] at ht
  cases ast
  case Trigger nm kind args body returnType =>
    simp only [compileScript, bind, Except.bind, pure, Except.pure] at h
    split at h
    · exact Except.noConfusion h
    · rename_i instrs hin
      cases h
      exact main _ _
        (prologue_no_targets _ _ (by intro i hi; cases hi)) instrs hin
  all_goals
    (simp only [compileScript, bind, Except.bind, pure, Except.pure] at h
     split at h
     · exact Except.noConfusion h
     · rename_i instrs hin
       cases h
       exact main _ _ (by intro i hi; cases hi) instrs hin)

theorem c9_targets_bounded_witness :
    targetsBoundedBy loopBC.instructions loopBC.instructions.length :=
  c9_targets_bounded "loop" loopAst loopBC (by decide)

theorem wrap32_eq_self (z : Int) (h1 : -2147483648 ≤ z)
    (h2 : z ≤ 2147483647) : wrap32 z = z := by
  unfold wrap32
  omega

theorem evalScript_vars (sc : List (String × AstKind)) (f : Nat)
    (vars : List (String × Int)) (name : String) (args : List Int) :
    evalScript sc f vars name args =
      (evalScript sc f [] name args).map (fun p => (p.1, vars)) := by
  rw [evalScript, evalScript]
  split
  · rfl
  · rename_i script hsc
    split
    · rename_i nm kd sargs body rt
      cases f with
      | zero => rfl
      | succ f1 =>
        simp only [bind, Except.bind, pure, Except.pure]
        rcases hx : evalAst sc f1 (((evalParamNames sargs).zip args).foldl
            (fun m p => varInsert m p.1 p.2) []) body with e | v
        · simp [hx, Except.map]
        · simp [hx, Except.map]
    · rename_i other hne
      cases f with
      | zero => rfl
      | succ f1 =>
        simp only [bind, Except.bind, pure, Except.pure]
        rcases hx : evalAst sc f1 [] script with e | v
        · simp [hx, Except.map]
        · simp [hx, Except.map]

theorem fib_base0 (f : Nat) :
    evalScript scFib (f + 1) [] "fib" [0] = .ok (1, []) := by
  rw [evalScript]
  simp [evScriptLookup, scFib, fibAst, evalParamNames, evalAst, evalStmts,
    evalArgs, varInsert, varLookup, trimDollar, bind, Except.bind, pure,
    Except.pure, wrap32]

theorem fib_base1 (f : Nat) :
    evalScript scFib (f + 1) [] "fib" [1] = .ok (1, []) := by
  rw [evalScript]
  simp [evScriptLookup, scFib, fibAst, evalParamNames, evalAst, evalStmts,
    evalArgs, varInsert, varLookup, trimDollar, bind, Except.bind, pure,
    Except.pure, wrap32]

theorem fib_base2 (f : Nat) :
    evalScript scFib (f + 1) [] "fib" [2] = .ok (1, []) := by
  rw [evalScript]
  simp [evScriptLookup, scFib, fibAst, evalParamNames, evalAst, evalStmts,
    evalArgs, varInsert, varLookup, trimDollar, bind, Except.bind, pure,
    Except.pure, wrap32]

theorem fib_recurrence (k a b : Int) (f : Nat)
    (h3 : 3 ≤ k) (hk : k ≤ 2147483647)
    (ha : evalScript scFib f [] "fib" [k - 1] = .ok (a, []))
    (hb : evalScript scFib f [] "fib" [k - 2] = .ok (b, [])) :
    evalScript scFib (f + 1) [] "fib" [k] = .ok (wrap32 (a + b), []) := by
  simp only [scFib, fibAst] at ha hb
  rw [evalScript]
  simp [evScriptLookup, scFib, fibAst, evalParamNames, evalAst, evalStmts,
    evalArgs, varInsert, varLookup, trimDollar, bind, Except.bind, pure,
    Except.pure, show ¬(k = 0) by omega, show ¬(k ≤ 2) by omega]
  rw [show wrap32 (k - 1) = k - 1 from wrap32_eq_self _ (by omega) (by omega)]
  rw [evalScript_vars _ f [("n", k)] "fib" [k - 1], ha]
  simp [Except.map, varLookup]
  rw [show wrap32 (k - 2) = k - 2 from wrap32_eq_self _ (by omega) (by omega)]
  rw [evalScript_vars _ f [("n", k)] "fib" [k - 2], hb]
  simp [Except.map]

theorem fibRef_bounds : ∀ n : Nat, n < 21 → 0 ≤ fibRef n ∧ fibRef n ≤ 6765 := by
  decide

theorem fib_chain (n : Nat) : ∀ (f : Nat), 1 ≤ n → n ≤ 20 → n + 1 ≤ f →
    evalScript scFib f [] "fib" [(n : Int)] = .ok (fibRef n, []) := by
  induction n using Nat.strong_induction_on with
  | _ n ih =>
    intro f h1 h20 hf
    rcases n with _ | n1
    · omega
    rcases n1 with _ | n2
    · obtain ⟨f1, rfl⟩ : ∃ f1, f = f1 + 1 := ⟨f - 1, by omega⟩
      simpa using fib_base1 f1
    rcases n2 with _ | m
    · obtain ⟨f1, rfl⟩ : ∃ f1, f = f1 + 1 := ⟨f - 1, by omega⟩
      simpa using fib_base2 f1
    · obtain ⟨f1, rfl⟩ : ∃ f1, f = f1 + 1 := ⟨f - 1, by omega⟩
      have ha := ih (m + 2) (by omega) f1 (by omega) (by omega) (by omega)
      have hb := ih (m + 1) (by omega) f1 (by omega) (by omega) (by omega)
      have e1 : ((m + 3 : Nat) : Int) - 1 = ((m + 2 : Nat) : Int) := by
        push_cast
        ring
      have e2 : ((m + 3 : Nat) : Int) - 2 = ((m + 1 : Nat) : Int) := by
        push_cast
        ring
      have key := fib_recurrence ((m + 3 : Nat) : Int) (fibRef (m + 2))
        (fibRef (m + 1)) f1 (by push_cast; omega) (by push_cast; omega)
        (e1 ▸ ha) (e2 ▸ hb)
      have hb1 := fibRef_bounds (m + 2) (by omega)
      have hb2 := fibRef_bounds (m + 1) (by omega)
      rw [show ((m + 1 + 1 + 1 : Nat) : Int) = ((m + 3 : Nat) : Int) by push_cast; ring,
          key, wrap32_eq_self _ (by omega) (by omega),
          show fibRef (m + 2) + fibRef (m + 1) = fibRef (m + 1 + 1 + 1) from by
            rw [show fibRef (m + 1 + 1 + 1) = fibRef (m + 1) + fibRef (m + 2) from rfl]
            ring]

theorem fact_base0 (f : Nat) :
    evalScript scFact (f + 1) [] "fact" [0] = .ok (1, []) := by
  rw [evalScript]
  simp [evScriptLookup, scFact, factAst, evalParamNames, evalAst, evalStmts,
    evalArgs, varInsert, varLookup, trimDollar, bind, Except.bind, pure,
    Except.pure]

theorem fact_base1 (f : Nat) :
    evalScript scFact (f + 1) [] "fact" [1] = .ok (1, []) := by
  rw [evalScript]
  simp [evScriptLookup, scFact, factAst, evalParamNames, evalAst, evalStmts,
    evalArgs, varInsert, varLookup, trimDollar, bind, Except.bind, pure,
    Except.pure]

theorem fact_recurrence (k a : Int) (f : Nat)
    (h2 : 2 ≤ k) (hk : k ≤ 2147483647)
    (ha : evalScript scFact f [] "fact" [k - 1] = .ok (a, [])) :
    evalScript scFact (f + 1) [] "fact" [k] = .ok (wrap32 (k * a), []) := by
  simp only [scFact, factAst] at ha
  rw [evalScript]
  simp [evScriptLookup, scFact, factAst, evalParamNames, evalAst, evalStmts,
    evalArgs, varInsert, varLookup, trimDollar, bind, Except.bind, pure,
    Except.pure, show ¬(k ≤ 1) by omega]
  rw [show wrap32 (k - 1) = k - 1 from wrap32_eq_self _ (by omega) (by omega)]
  rw [evalScript_vars _ f [("n", k)] "fact" [k - 1], ha]
  simp [Except.map, varLookup]

theorem factRef_facts : ∀ n : Nat, n < 13 →
    0 < factRef n ∧ factRef n ≤ 479001600 ∧ (n : Int) ≤ factRef n := by
  decide

theorem fact_chain (n : Nat) : ∀ (f : Nat), n ≤ 12 → n + 1 ≤ f →
    evalScript scFact f [] "fact" [(n : Int)] = .ok (factRef n, []) := by
  induction n using Nat.strong_induction_on with
  | _ n ih =>
    intro f h12 hf
    rcases n with _ | n1
    · obtain ⟨f1, rfl⟩ : ∃ f1, f = f1 + 1 := ⟨f - 1, by omega⟩
      simpa using fact_base0 f1
    rcases n1 with _ | m
    · obtain ⟨f1, rfl⟩ : ∃ f1, f = f1 + 1 := ⟨f - 1, by omega⟩
      simpa using fact_base1 f1
    · obtain ⟨f1, rfl⟩ : ∃ f1, f = f1 + 1 := ⟨f - 1, by omega⟩
      have ha := ih (m + 1) (by omega) f1 (by omega) (by omega)
      have e1 : ((m + 2 : Nat) : Int) - 1 = ((m + 1 : Nat) : Int) := by
        push_cast
        ring
      have key := fact_recurrence ((m + 2 : Nat) : Int) (factRef (m + 1)) f1
        (by push_cast; omega) (by push_cast; omega) (e1 ▸ ha)
      have heq : ((m + 2 : Nat) : Int) * factRef (m + 1) = factRef (m + 2) := rfl
      rw [heq] at key
      have hfb := factRef_facts (m + 2) (by omega)
      rw [wrap32_eq_self _ (by omega) (by omega)] at key
      exact key

theorem tfact_base (k acc : Int) (f : Nat) (hk : k ≤ 1) (hacc : acc ≠ 0) :
    evalScript scTfact (f + 1) [] "tfact" [k, acc] = .ok (acc, []) := by
  rw [evalScript]
  simp [evScriptLookup, scTfact, tfactAst, evalParamNames, evalAst, evalStmts,
    evalArgs, varInsert, varLookup, trimDollar, bind, Except.bind, pure,
    Except.pure, hk, hacc]

theorem tfact_recurrence (k acc a : Int) (f : Nat)
    (h2 : 2 ≤ k) (hk : k ≤ 2147483647)
    (ha : evalScript scTfact f [] "tfact" [k - 1, wrap32 (k * acc)] =
      .ok (a, [])) :
    evalScript scTfact (f + 1) [] "tfact" [k, acc] = .ok (a, []) := by
  simp only [scTfact, tfactAst] at ha
  rw [evalScript]
  simp [evScriptLookup, scTfact, tfactAst, evalParamNames, evalAst, evalStmts,
    evalArgs, varInsert, varLookup, trimDollar, bind, Except.bind, pure,
    Except.pure, show ¬(k ≤ 1) by omega]
  rw [show wrap32 (k - 1) = k - 1 from wrap32_eq_self _ (by omega) (by omega)]
  rw [evalScript_vars _ f _ "tfact" [k - 1, wrap32 (k * acc)], ha]
  simp [Except.map]

theorem tfact_chain (n : Nat) : ∀ (f : Nat) (acc : Int), n ≤ 12 → 1 ≤ acc →
    factRef n * acc ≤ 2147483647 → n + 1 ≤ f →
    evalScript scTfact f [] "tfact" [(n : Int), acc] =
      .ok (factRef n * acc, []) := by
  induction n using Nat.strong_induction_on with
  | _ n ih =>
    intro f acc h12 hacc hbound hf
    rcases n with _ | n1
    · obtain ⟨f1, rfl⟩ : ∃ f1, f = f1 + 1 := ⟨f - 1, by omega⟩
      have := tfact_base 0 acc f1 (by omega) (by omega)
      simpa [factRef] using this
    rcases n1 with _ | m
    · obtain ⟨f1, rfl⟩ : ∃ f1, f = f1 + 1 := ⟨f - 1, by omega⟩
      have := tfact_base 1 acc f1 (by omega) (by omega)
      simpa [factRef] using this
    · obtain ⟨f1, rfl⟩ : ∃ f1, f = f1 + 1 := ⟨f - 1, by omega⟩
      have hfb1 := factRef_facts (m + 1) (by omega)
      have hfb2 := factRef_facts (m + 2) (by omega)
      have hbound2 : factRef (m + 2) * acc ≤ 2147483647 := hbound
      have heq : ((m + 2 : Nat) : Int) * factRef (m + 1) = factRef (m + 2) := rfl
      have hacc0 : (0 : Int) ≤ acc := by omega
      have hpos : (1 : Int) ≤ ((m + 2 : Nat) : Int) * acc := by
        have h1 : (1 : Int) ≤ ((m + 2 : Nat) : Int) := by push_cast; omega
        nlinarith
      have hprod : ((m + 2 : Nat) : Int) * acc ≤ factRef (m + 2) * acc := by
        have := mul_le_mul_of_nonneg_right hfb2.2.2 hacc0
        simpa using this
      have hbig : factRef (m + 1) * (((m + 2 : Nat) : Int) * acc) =
          factRef (m + 2) * acc := by
        rw [← heq]
        ring
      have ha := ih (m + 1) (by omega) f1 (((m + 2 : Nat) : Int) * acc)
        (by omega) hpos (by rw [hbig]; exact hbound2) (by omega)
      have e1 : ((m + 2 : Nat) : Int) - 1 = ((m + 1 : Nat) : Int) := by
        push_cast
        ring
      have hw : wrap32 (((m + 2 : Nat) : Int) * acc) =
          ((m + 2 : Nat) : Int) * acc :=
        wrap32_eq_self _ (by omega) (by omega)
      have ha2 : evalScript scTfact f1 [] "tfact"
          [((m + 2 : Nat) : Int) - 1, wrap32 (((m + 2 : Nat) : Int) * acc)] =
          .ok (factRef (m + 2) * acc, []) := by
        rw [e1, hw, ha, hbig]
      have key := tfact_recurrence ((m + 2 : Nat) : Int) acc
        (factRef (m + 2) * acc) f1 (by push_cast; omega) (by push_cast; omega)
        ha2
      exact key

set_option maxRecDepth 1000000 in
set_option maxHeartbeats 4000000 in
theorem vm_fib_r1_6 : ∀ n : Nat, n < 6 → 1 ≤ n →
    (runScript vmEx "fib" [(n : Int)]).1 = .ok (fibRef n) := by decide

set_option maxRecDepth 1000000 in
set_option maxHeartbeats 4000000 in
theorem vm_fib_r6_8 : ∀ n : Nat, n < 8 → 6 ≤ n →
    (runScript vmEx "fib" [(n : Int)]).1 = .ok (fibRef n) := by decide

set_option maxRecDepth 1000000 in
set_option maxHeartbeats 4000000 in
theorem vm_fib_r8_10 : ∀ n : Nat, n < 10 → 8 ≤ n →
    (runScript vmEx "fib" [(n : Int)]).1 = .ok (fibRef n) := by decide

set_option maxRecDepth 1000000 in
set_option maxHeartbeats 4000000 in
theorem vm_fib_r10_12 : ∀ n : Nat, n < 12 → 10 ≤ n →
    (runScript vmEx "fib" [(n : Int)]).1 = .ok (fibRef n) := by decide

set_option maxRecDepth 1000000 in
set_option maxHeartbeats 4000000 in
theorem vm_fib_r12_13 : ∀ n : Nat, n < 13 → 12 ≤ n →
    (runScript vmEx "fib" [(n : Int)]).1 = .ok (fibRef n) := by decide

set_option maxRecDepth 1000000 in
set_option maxHeartbeats 4000000 in
theorem vm_fib_r13_14 : ∀ n : Nat, n < 14 → 13 ≤ n →
    (runScript vmEx "fib" [(n : Int)]).1 = .ok (fibRef n) := by decide

set_option maxRecDepth 1000000 in
set_option maxHeartbeats 4000000 in
theorem vm_fib_r14_15 : ∀ n : Nat, n < 15 → 14 ≤ n →
    (runScript vmEx "fib" [(n : Int)]).1 = .ok (fibRef n) := by decide

set_option maxRecDepth 1000000 in
set_option maxHeartbeats 4000000 in
theorem vm_fib_r15_16 : ∀ n : Nat, n < 16 → 15 ≤ n →
    (runScript vmEx "fib" [(n : Int)]).1 = .ok (fibRef n) := by decide

set_option maxRecDepth 1000000 in
set_option maxHeartbeats 4000000 in
theorem vm_fib_r16_17 : ∀ n : Nat, n < 17 → 16 ≤ n →
    (runScript vmEx "fib" [(n : Int)]).1 = .ok (fibRef n) := by decide

set_option maxRecDepth 1000000 in
set_option maxHeartbeats 4000000 in
theorem vm_fib_r17_18 : ∀ n : Nat, n < 18 → 17 ≤ n →
    (runScript vmEx "fib" [(n : Int)]).1 = .ok (fibRef n) := by decide

set_option maxRecDepth 1000000 in
set_option maxHeartbeats 4000000 in
theorem vm_fib_r18_19 : ∀ n : Nat, n < 19 → 18 ≤ n →
    (runScript vmEx "fib" [(n : Int)]).1 = .ok (fibRef n) := by decide

set_option maxRecDepth 1000000 in
set_option maxHeartbeats 4000000 in
theorem vm_fib_r19_20 : ∀ n : Nat, n < 20 → 19 ≤ n →
    (runScript vmEx "fib" [(n : Int)]).1 = .ok (fibRef n) := by decide

set_option maxRecDepth 1000000 in
set_option maxHeartbeats 4000000 in
theorem vm_fib_r20_21 : ∀ n : Nat, n < 21 → 20 ≤ n →
    (runScript vmEx "fib" [(n : Int)]).1 = .ok (fibRef n) := by decide

set_option maxRecDepth 1000000 in
set_option maxHeartbeats 4000000 in
theorem vm_fact_r0_6 : ∀ n : Nat, n < 6 → 0 ≤ n →
    (runScript vmEx "fact" [(n : Int)]).1 = .ok (factRef n) := by decide

set_option maxRecDepth 1000000 in
set_option maxHeartbeats 4000000 in
theorem vm_fact_r6_9 : ∀ n : Nat, n < 9 → 6 ≤ n →
    (runScript vmEx "fact" [(n : Int)]).1 = .ok (factRef n) := by decide

set_option maxRecDepth 1000000 in
set_option maxHeartbeats 4000000 in
theorem vm_fact_r9_11 : ∀ n : Nat, n < 11 → 9 ≤ n →
    (runScript vmEx "fact" [(n : Int)]).1 = .ok (factRef n) := by decide

set_option maxRecDepth 1000000 in
set_option maxHeartbeats 4000000 in
theorem vm_fact_r11_13 : ∀ n : Nat, n < 13 → 11 ≤ n →
    (runScript vmEx "fact" [(n : Int)]).1 = .ok (factRef n) := by decide

set_option maxRecDepth 1000000 in
set_option maxHeartbeats 4000000 in
theorem vm_tfact_r0_6 : ∀ n : Nat, n < 6 → 0 ≤ n →
    (runScript vmEx "tfact" [(n : Int), 1]).1 = .ok (factRef n) := by decide

set_option maxRecDepth 1000000 in
set_option maxHeartbeats 4000000 in
theorem vm_tfact_r6_9 : ∀ n : Nat, n < 9 → 6 ≤ n →
    (runScript vmEx "tfact" [(n : Int), 1]).1 = .ok (factRef n) := by decide

set_option maxRecDepth 1000000 in
set_option maxHeartbeats 4000000 in
theorem vm_tfact_r9_11 : ∀ n : Nat, n < 11 → 9 ≤ n →
    (runScript vmEx "tfact" [(n : Int), 1]).1 = .ok (factRef n) := by decide

set_option maxRecDepth 1000000 in
set_option maxHeartbeats 4000000 in
theorem vm_tfact_r11_13 : ∀ n : Nat, n < 13 → 11 ≤ n →
    (runScript vmEx "tfact" [(n : Int), 1]).1 = .ok (factRef n) := by decide

set_option maxRecDepth 1000000 in
set_option maxHeartbeats 4000000 in
theorem vm_ovf_decide :
    (runScript vmEx "fact" [13]).1 = .error .overflow ∧
    (runScript vmEx "tfact" [13, 1]).1 = .error .overflow := by decide

theorem vm_fib_all (n : Nat) (h21 : n < 21) (h1 : 1 ≤ n) :
    (runScript vmEx "fib" [(n : Int)]).1 = .ok (fibRef n) := by
  by_cases h6 : n < 6
  · exact vm_fib_r1_6 n h6 (by omega)
  by_cases h8 : n < 8
  · exact vm_fib_r6_8 n h8 (by omega)
  by_cases h10 : n < 10
  · exact vm_fib_r8_10 n h10 (by omega)
  by_cases h12 : n < 12
  · exact vm_fib_r10_12 n h12 (by omega)
  by_cases h13 : n < 13
  · exact vm_fib_r12_13 n h13 (by omega)
  by_cases h14 : n < 14
  · exact vm_fib_r13_14 n h14 (by omega)
  by_cases h15 : n < 15
  · exact vm_fib_r14_15 n h15 (by omega)
  by_cases h16 : n < 16
  · exact vm_fib_r15_16 n h16 (by omega)
  by_cases h17 : n < 17
  · exact vm_fib_r16_17 n h17 (by omega)
  by_cases h18 : n < 18
  · exact vm_fib_r17_18 n h18 (by omega)
  by_cases h19 : n < 19
  · exact vm_fib_r18_19 n h19 (by omega)
  by_cases h20 : n < 20
  · exact vm_fib_r19_20 n h20 (by omega)
  by_cases h21 : n < 21
  · exact vm_fib_r20_21 n h21 (by omega)
  omega

theorem vm_fact_all (n : Nat) (h13 : n < 13) :
    (runScript vmEx "fact" [(n : Int)]).1 = .ok (factRef n) ∧
    (runScript vmEx "tfact" [(n : Int), 1]).1 = .ok (factRef n) := by
  by_cases h6 : n < 6
  · exact ⟨vm_fact_r0_6 n h6 (by omega), vm_tfact_r0_6 n h6 (by omega)⟩
  by_cases h9 : n < 9
  · exact ⟨vm_fact_r6_9 n h9 (by omega), vm_tfact_r6_9 n h9 (by omega)⟩
  by_cases h11 : n < 11
  · exact ⟨vm_fact_r9_11 n h11 (by omega), vm_tfact_r9_11 n h11 (by omega)⟩
  by_cases h13 : n < 13
  · exact ⟨vm_fact_r11_13 n h13 (by omega), vm_tfact_r11_13 n h13 (by omega)⟩
  omega

/-- C1, counterexample: at `n = 0` the rewritten `fib` bytecode returns
0 (true Fibonacci) while the evaluator on the original recursive AST
returns 1 — the base-case `If` returns 0, the statement loop treats a
zero `If` result as fall-through, and the next base case fires. -/
theorem c1_counterexample :
    (runScript vmEx "fib" [0]).1 = .ok 0 ∧
    evalScript scFib (9 + 1) [] "fib" [0] = .ok (1, []) ∧
    (0 : Int) ≠ 1 :=
  ⟨by decide, fib_base0 9, by decide⟩

/-- C1, amended: the rewritten bytecode agrees with the evaluator on
the original recursive AST for `fib` on `1..20` (both give true
Fibonacci; they *disagree* at 0) and for `fact`/`tfact` on `0..12`
(both give `n!`); from 13 on, the VM's checked `Multiply` reports an
overflow error for both factorial families, while the evaluator's
unchecked arithmetic wraps, so the agreement stops there. -/
theorem c1_rewrite_equivalence :
    (∀ n : Nat, n < 21 → 1 ≤ n →
      (runScript vmEx "fib" [(n : Int)]).1 = .ok (fibRef n) ∧
      ∀ f : Nat, n + 1 ≤ f →
        evalScript scFib f [] "fib" [(n : Int)] = .ok (fibRef n, [])) ∧
    (∀ n : Nat, n < 13 →
      ((runScript vmEx "fact" [(n : Int)]).1 = .ok (factRef n) ∧
       (runScript vmEx "tfact" [(n : Int), 1]).1 = .ok (factRef n)) ∧
      ∀ f : Nat, n + 1 ≤ f →
        evalScript scFact f [] "fact" [(n : Int)] = .ok (factRef n, []) ∧
        evalScript scTfact f [] "tfact" [(n : Int), 1] =
          .ok (factRef n, [])) ∧
    ((runScript vmEx "fact" [13]).1 = .error .overflow ∧
     (runScript vmEx "tfact" [13, 1]).1 = .error .overflow) := by
  refine ⟨?_, ?_, vm_ovf_decide⟩
  · intro n h21 h1
    refine ⟨vm_fib_all n h21 h1, ?_⟩
    intro f hf
    exact fib_chain n f h1 (by omega) hf
  · intro n h13
    refine ⟨vm_fact_all n h13, ?_⟩
    intro f hf
    constructor
    · exact fact_chain n f (by omega) hf
    · have hfr := factRef_facts n h13
      have hb : factRef n * 1 ≤ 2147483647 := by
        rw [mul_one]
        omega
      have := tfact_chain n f 1 (by omega) (by norm_num) hb hf
      simpa using this

theorem c1_rewrite_equivalence_witness :
    ((runScript vmEx "fib" [((5 : Nat) : Int)]).1 = .ok (fibRef 5) ∧
     evalScript scFib 6 [] "fib" [((5 : Nat) : Int)] = .ok (fibRef 5, [])) ∧
    ((runScript vmEx "fact" [((12 : Nat) : Int)]).1 = .ok (factRef 12) ∧
     evalScript scFact 13 [] "fact" [((12 : Nat) : Int)] =
       .ok (factRef 12, [])) :=
  ⟨⟨(c1_rewrite_equivalence.1 5 (by decide) (by decide)).1,
    (c1_rewrite_equivalence.1 5 (by decide) (by decide)).2 6 (by decide)⟩,
   ⟨((c1_rewrite_equivalence.2.1 12 (by decide)).1).1,
    ((c1_rewrite_equivalence.2.1 12 (by decide)).2 13 (by decide)).1⟩⟩
